import Mathlib

/-!
A verification development for the WriteFree rich-text editor core
(src/src/Editor.js, src/src/writeFreeLib.js, src/src/insertToolbar.js,
src/src/editToolbar.js, wired through src/src/main.js).

The DOM is shallowly embedded: the children of the contenteditable inner
container are a list of sections; each section is a block element carrying
a tag, a class list, a list of inline text runs and at most one atomic
child (img or hr).  Node identity is modelled by a numeric id: every DOM
node ever created receives a fresh id, and references held by the editor
(the remembered first section, the key-down snapshot) store ids.  Inline
content is modelled as flat runs (text plus bold/italic/link marks), an
abstraction of the nested inline markup that the code itself only touches
at this granularity (stripping all tags, wrapping a range in one anchor,
merging adjacent text nodes).  Presentation-only data (inline styles,
toolbar geometry) is abstracted away; where an operation of the source
touches chrome outside the section list (the toolbars, the outer
container) the embedding says so in a comment at that branch.
-/

namespace WF

/-- Block tags that `findParentBlock` recognises (DIV, P, H1, H2). -/
inductive Tag
  | div
  | p
  | h1
  | h2
  deriving DecidableEq, Repr

/-- The two atomic objects a container section can wrap. -/
inductive Atomic
  | image (src alt : String)
  | rule
  deriving DecidableEq, Repr

/-- One inline text run with its marks.  A plain run (no marks) models a
bare DOM text node; a marked run models text wrapped in b / i / a. -/
structure Run where
  bold : Bool
  italic : Bool
  link : Option String
  text : String
  deriving DecidableEq, Repr

/-- A run with no marks: a bare text node in the DOM. -/
def Run.isPlain (r : Run) : Bool :=
  !r.bold && !r.italic && r.link.isNone

/-- A plain run of the given text. -/
def plainRun (t : String) : Run :=
  { bold := false, italic := false, link := none, text := t }

/-- The class the code puts on every text section (Editor.generateClasses). -/
def textSectionClass : String := "wf__text-section"

/-- The class the code puts on every container section. -/
def containerSectionClass : String := "wf__container-section"

/-- A block child of the inner container: tag, class list, inline runs and
at most one atomic child.  `id` models DOM node identity. -/
structure Sec where
  id : Nat
  tag : Tag
  classes : List String
  runs : List Run
  obj : Option Atomic
  deriving DecidableEq, Repr

/-- classList.contains(textSectionClass). -/
def Sec.isText (s : Sec) : Bool := s.classes.contains textSectionClass

/-- classList.contains(containerSectionClass). -/
def Sec.isCtn (s : Sec) : Bool := s.classes.contains containerSectionClass

/-- textContent of a section: the concatenation of its run texts (atomic
children contribute no text). -/
def Sec.textContent (s : Sec) : String :=
  s.runs.foldl (fun a r => a ++ r.text) ""

/-- The structural shape of a section, forgetting node identity. -/
def Sec.shape (s : Sec) : Tag × List String × List Run × Option Atomic :=
  (s.tag, s.classes, s.runs, s.obj)

/-! ### List-of-sections primitives

These model the DOM child-list operations the code performs on the inner
container: removeChild, insertBefore with a reference node, insertBefore
with a null reference (appendChild), sibling lookups, and in-place node
mutation.  Ids model identity, so lookups and removals go by id. -/

/-- removeChild: drop the node with the given id. -/
def removeSec (d : List Sec) (i : Nat) : List Sec :=
  d.filter (fun s => s.id ≠ i)

/-- Mutate the node with the given id in place (textContent, innerHTML,
class changes...).  The id is forcibly preserved: DOM mutation never
changes node identity. -/
def updateSec (d : List Sec) (i : Nat) (f : Sec → Sec) : List Sec :=
  d.map (fun s => if s.id = i then { f s with id := s.id } else s)

/-- Replace the node with the given id by a different node (what
execCommand formatBlock does: the old element is swapped for a fresh
one). -/
def replaceSec (d : List Sec) (i : Nat) (x : Sec) : List Sec :=
  d.map (fun s => if s.id = i then x else s)

/-- insertBefore(x, node i): place x directly before the node with id i. -/
def insertBeforeSec : List Sec → Nat → Sec → List Sec
  | [], _, _ => []
  | s :: rest, i, x =>
      if s.id = i then x :: s :: rest else s :: insertBeforeSec rest i x

/-- insertBefore(x, (node i).nextSibling): place x directly after the node
with id i; if the reference is absent this appends (insertBefore with a
null reference node is appendChild). -/
def insertAfterSec : List Sec → Nat → Sec → List Sec
  | [], _, x => [x]
  | s :: rest, i, x =>
      if s.id = i then s :: x :: rest else s :: insertAfterSec rest i x

/-- node.previousSibling, looked up by id. -/
def prevSiblingOf : List Sec → Nat → Option Sec
  | [], _ => none
  | [_], _ => none
  | a :: b :: rest, i =>
      if a.id = i then none
      else if b.id = i then some a
      else prevSiblingOf (b :: rest) i

/-- node.nextSibling, looked up by id. -/
def nextSiblingOf : List Sec → Nat → Option Sec
  | [], _ => none
  | [_], _ => none
  | a :: b :: rest, i =>
      if a.id = i then some b else nextSiblingOf (b :: rest) i

/-- find the node with the given id ($innerCtn.contains + dereference). -/
def findSec (d : List Sec) (i : Nat) : Option Sec :=
  d.find? (fun s => s.id = i)

/-- The child-list position of the node with the given id. -/
def idxOfSec : List Sec → Nat → Option Nat
  | [], _ => none
  | s :: rest, i =>
      if s.id = i then some 0 else (idxOfSec rest i).map (· + 1)

/-! ### Selection and cursor -/

/-- Where the selection anchor resolves.  `inSec` is an anchor inside a
section of the inner container (the section element itself or one of its
text descendants); `atRoot` is an anchor on the inner container itself
(select-all and some host deletions leave it there); `inToolbar` is an
anchor inside toolbar chrome; `invalid` covers a selection with no range
or no block ancestor at all (sel.anchorNode null or outside any DIV / P /
H1 / H2) - dereferencing such an anchor throws in the source. -/
inductive CursorPos
  | inSec (id : Nat)
  | atRoot
  | inToolbar
  | invalid
  deriving DecidableEq, Repr

/-- The selection state the handlers read: anchor, anchorOffset (a
character offset into the anchored block, the normalized
single-text-node case, or a child index for a root anchor), the focus
boundary offset, whether anchorNode and focusNode are the same node,
and isCollapsed.  The model keeps ranges forward-oriented: when
sameNode holds, the range read by getRangeAt runs from anchorOffset to
focusOffset (anchorOffset is the start boundary and focusOffset the
end, equal when collapsed); when sameNode is false only the anchor
side is tracked (the focus boundary lives in a node the flat model
does not locate). -/
structure Sel where
  anchor : CursorPos
  anchorOffset : Nat
  focusOffset : Nat
  sameNode : Bool
  collapsed : Bool
  deriving DecidableEq, Repr

/-- A collapsed selection at the start of the given node. -/
def selStartOf (c : CursorPos) : Sel :=
  { anchor := c, anchorOffset := 0, focusOffset := 0, sameNode := true, collapsed := true }

/-- What findParentBlock can return: a section of the inner container,
the inner container itself (it is a DIV), or a toolbar div. -/
inductive Target
  | sec (id : Nat)
  | root
  | toolbar
  deriving DecidableEq, Repr

/-- findParentBlock (writeFreeLib.js): walks the parent chain for a DIV /
P / H1 / H2.  An anchor inside a section, on the inner container, or in a
toolbar resolves to the corresponding div; a null anchor or one with no
block ancestor walks off the tree and throws a TypeError. -/
def findParentBlockOf : CursorPos → Except Unit Target
  | .inSec i => .ok (.sec i)
  | .atRoot => .ok .root
  | .inToolbar => .ok .toolbar
  | .invalid => .error ()

/-! ### Options and editor state -/

/-- The user/default options the embedded operations read.  Class options
are held as the raw lists the code coerces them to (Array of one string;
the default empty string is kept and filtered out by addClasses, which
skips empty class names).  Styles are presentation-only and abstracted
away. -/
structure Options where
  divOrPar : Tag
  sectionClass : List String
  containerClass : String
  largeHeadingClass : List String
  smallHeadingClass : List String
  imgClass : List String
  deriving DecidableEq, Repr

/-- main.js defaultOptions (string class options, coerced to one-element
arrays as createTextSection does). -/
def defaultOptions : Options :=
  { divOrPar := .p
    sectionClass := [""]
    containerClass := ""
    largeHeadingClass := [""]
    smallHeadingClass := [""]
    imgClass := [""] }

/-- Editor.generateClasses: classes.main starts as the array containing
the editor class and, unless containerClass equals the misspelt literal
the code compares against, the raw containerClass is pushed as well. -/
def generateMainClasses (o : Options) : List String :=
  if o.containerClass ≠ "wf__edtior" then ["wf__editor", o.containerClass]
  else ["wf__editor"]

/-- The whole editor state the handlers act on: the options object (the
code mutates options.sectionClass in place), the main class array, the
live contenteditable flag of the inner container, the section list, the
selection, the remembered $firstSection node, the key-down snapshot
(prevSection / prevSectionPrevSibling / prevOffset) and a fresh-id
supply modelling DOM node creation. -/
structure EditorState where
  opts : Options
  mainClasses : List String
  rootEditable : Bool
  doc : List Sec
  sel : Sel
  firstSection : Option Sec
  prevSection : Option Target
  prevOffset : Nat
  prevSib : Option Nat
  nextId : Nat
  deriving DecidableEq, Repr

/-- The result of running a handler: it either returns a value or throws;
either way the mutations made before the return / throw persist in the
carried state (DOM mutation is not transactional). -/
inductive Outcome (α : Type)
  | ok (st : EditorState) (val : α)
  | thrown (st : EditorState)
  deriving DecidableEq, Repr

/-- The state after the handler finished, whether it returned or threw. -/
def Outcome.state : Outcome α → EditorState
  | .ok st _ => st
  | .thrown st => st

/-- True when the handler returned without throwing. -/
def Outcome.isOk : Outcome α → Bool
  | .ok _ _ => true
  | .thrown _ => false

/-! ### writeFreeLib embeddings -/

/-- The keys the handlers inspect.  `cutX` stands for the modified x
(ctrl / shift / alt / meta + x) that isDeletionKey also accepts. -/
inductive Key
  | backspace
  | delete
  | enter
  | arrowUp
  | arrowDown
  | arrowLeft
  | arrowRight
  | char (c : Char)
  | cutX
  deriving DecidableEq, Repr

/-- isDeletionKey (writeFreeLib.js): Backspace or Delete with or without
modifiers, or a modified x. -/
def isDeletionKey : Key → Bool
  | .backspace => true
  | .delete => true
  | .cutX => true
  | _ => false

/-- url.includes(dot), over the character list. -/
def hasDot (url : String) : Bool := url.toList.contains '.'

/-- url.startsWith(p), over the character lists. -/
def strStarts (p url : String) : Bool := p.toList.isPrefixOf url.toList

/-- validateURL (writeFreeLib.js): requires a dot, prefixes the http
scheme when no scheme is present, and otherwise returns the url
unchanged; none models the false return. -/
def validateURL (url : String) : Option String :=
  if !(hasDot url) then none
  else if !(strStarts ("http://") url) && !(strStarts ("https://") url) then
    some (("http://") ++ url)
  else some url

/-! ### Section creation (Editor.js) -/

/-- createTextSection: coerces options.sectionClass to an array, pushes
the text-section class into it if absent (mutating the options object),
and generates a block element of options.divOrPar whose classes are the
non-empty entries of that array (addClasses skips empty strings). -/
def createTextSection (st : EditorState) : Sec × EditorState :=
  let scRaw :=
    if st.opts.sectionClass.contains textSectionClass then st.opts.sectionClass
    else st.opts.sectionClass ++ [textSectionClass]
  let s : Sec :=
    { id := st.nextId
      tag := st.opts.divOrPar
      classes := scRaw.filter (fun c => c ≠ "")
      runs := []
      obj := none }
  (s, { st with opts := { st.opts with sectionClass := scRaw }, nextId := st.nextId + 1 })

/-- createContainerSection: a DIV carrying only the container class
(style abstracted away). -/
def createContainerSection (st : EditorState) : Sec × EditorState :=
  let s : Sec :=
    { id := st.nextId
      tag := .div
      classes := [containerSectionClass]
      runs := []
      obj := none }
  (s, { st with nextId := st.nextId + 1 })

/-- createFirstTextSection: reuses the remembered $firstSection node
(creating one on first use), wipes its textContent, moves it to the
front of the inner container (insertBefore firstChild moves a node that
is already attached) and collapses the selection to its start. -/
def createFirstTextSection (st : EditorState) : EditorState :=
  let p : Sec × EditorState :=
    match st.firstSection with
    | some fs => (fs, st)
    | none => createTextSection st
  let fs : Sec := { p.1 with runs := [], obj := none }
  { p.2 with
      doc := fs :: removeSec p.2.doc fs.id
      firstSection := some fs
      sel := selStartOf (.inSec fs.id) }

/-- displayFirstSectionPlaceholder: on a collapsed selection anchored on
the first child, when that child carries the text-section class and has
empty textContent, its innerHTML is cleared (dropping any stray br). -/
def displayFirstSectionPlaceholder (st : EditorState) : EditorState :=
  match st.sel.anchor with
  | .inSec i =>
      if st.sel.collapsed ∧ (st.doc.head?.map Sec.id) = some i then
        match findSec st.doc i with
        | some s =>
            if s.isText ∧ s.textContent = "" then
              { st with doc := updateSec st.doc i (fun t => { t with runs := [], obj := none }) }
            else st
        | none => st
      else st
  | _ => st

/-! ### Inline content primitives -/

/-- Split a run list at a character offset; marks are preserved on both
sides (this is what cloning or deleting a range boundary does). -/
def splitRunsAt : List Run → Nat → List Run × List Run
  | [], _ => ([], [])
  | r :: rs, n =>
      if n = 0 then ([], r :: rs)
      else if n < r.text.length then
        ([{ r with text := String.mk (r.text.toList.take n) }],
          { r with text := String.mk (r.text.toList.drop n) } :: rs)
      else
        let p := splitRunsAt rs (n - r.text.length)
        (r :: p.1, p.2)

/-- Node.normalize restricted to the flat run model: adjacent bare text
nodes (plain runs) merge and empty text nodes disappear; marked runs are
separate elements and are left alone. -/
def normalizeRuns : List Run → List Run
  | [] => []
  | r :: rest =>
      let tail := normalizeRuns rest
      if r.isPlain then
        if r.text = "" then tail
        else
          match tail with
          | r2 :: rest2 =>
              if r2.isPlain then plainRun (r.text ++ r2.text) :: rest2
              else r :: tail
          | [] => [r]
      else r :: tail

/-- normalizeSection (Editor.js): inside its own try block it normalizes
the blocks holding the selection ends and their common ancestor; any
failure is swallowed.  With the anchor on a section this normalizes that
section; with the anchor on the inner container, Node.normalize recurses
through every child section; an unresolvable selection is caught and
nothing happens.  (The focus end is not tracked separately by the model;
normalization is content-only either way.) -/
def normalizeSectionEvt (st : EditorState) : EditorState :=
  match st.sel.anchor with
  | .inSec i => { st with doc := updateSec st.doc i (fun s => { s with runs := normalizeRuns s.runs }) }
  | .atRoot => { st with doc := st.doc.map (fun s => { s with runs := normalizeRuns s.runs }) }
  | _ => st

/-! ### Structural editing operations (Editor.js) -/

/-- deleteContainerSection: resolves the block under the anchor (this
throws for an unresolvable anchor), takes its previous sibling for
Backspace / next sibling for Delete, and when that sibling carries the
container class calls preventDefault and removes it.  The returned Bool
is the defaultPrevented flag the keystroke composition needs.  With the
block being the inner container or a toolbar the sibling lives outside
the section list and never carries the container class, so nothing
happens; a detached anchor id has no sibling in the document. -/
def deleteContainerSection (k : Key) (st : EditorState) : Outcome Bool :=
  match findParentBlockOf st.sel.anchor with
  | .error _ => .thrown st
  | .ok t =>
      let nbr : Option (Sec × Nat) :=
        match t, k with
        | .sec i, .backspace =>
            match idxOfSec st.doc i with
            | some 0 => none
            | some (j + 1) => (st.doc[j]?).map (fun c => (c, j))
            | none => none
        | .sec i, .delete =>
            match idxOfSec st.doc i with
            | some j => (st.doc[j + 1]?).map (fun c => (c, j + 1))
            | none => none
        | _, _ => none
      match nbr with
      | some p =>
          if p.1.isCtn then .ok { st with doc := st.doc.eraseIdx p.2 } true
          else .ok st false
      | none => .ok st false

/-- preventTextInContainer: when the block under the anchor carries the
container class, the cursor is moved out: up / left go to the previous
sibling, down / right to the next, any other key reuses the next sibling
only when it is an empty non-container block and otherwise synthesizes a
fresh text section right after the container; default is always
prevented in that case.  sel.collapse(null) (no sibling on an arrow)
clears the selection.  Resolving the anchor can throw. -/
def preventTextInContainer (k : Key) (st : EditorState) : Outcome Bool :=
  match findParentBlockOf st.sel.anchor with
  | .error _ => .thrown st
  | .ok .root => .ok st false
  | .ok .toolbar => .ok st false
  | .ok (.sec i) =>
      match findSec st.doc i with
      | none => .ok st false
      | some s =>
          if s.isCtn then
            let collapseTo : Option Sec → EditorState := fun o =>
              match o with
              | some n => { st with sel := selStartOf (.inSec n.id) }
              | none => { st with sel := selStartOf .invalid }
            if k = .arrowUp ∨ k = .arrowLeft then
              .ok (collapseTo (prevSiblingOf st.doc i)) true
            else if k = .arrowDown ∨ k = .arrowRight then
              .ok (collapseTo (nextSiblingOf st.doc i)) true
            else
              let reuse : Option Sec :=
                match nextSiblingOf st.doc i with
                | some n =>
                    if !n.isCtn && !(n.isText && n.textContent.length > 0) then some n
                    else none
                | none => none
              match reuse with
              | some n => .ok { st with sel := selStartOf (.inSec n.id) } true
              | none =>
                  let p := createTextSection st
                  .ok { p.2 with
                          doc := insertAfterSec p.2.doc i p.1
                          sel := selStartOf (.inSec p.1.id) } true
          else .ok st false

/-- newLineHandler: prevents the default, resolves the block under the
focus, inserts a fresh text section right after it, for a collapsed
cursor extends the range end to just before that new section and moves
the cloned content into it (marks preserved), then calls
currentRange.deleteContents() - which removes everything the range now
covers - and collapses the selection to the start of the new section,
which is normalized.  With the block being the inner container itself
(a root anchor: offsets are child indices and the new section lands
OUTSIDE the inner container, in the outer container), the extended /
given range covers the sections from the start boundary on (collapsed:
from anchorOffset to past the container; non-collapsed: the
anchorOffset..focusOffset slice: for a root anchor focusOffset is the
child index of the section holding the end boundary, so a deeper end
boundary only trims that boundary section, a content-only effect, and
it survives the slice), and deleteContents removes every fully
contained section - a root select-all plus Enter empties the
section list; the surviving cursor sits in the new block outside the
inner container, which the model marks as an unresolvable selection
(no later claim dereferences it).  A toolbar-resolved block keeps the
range inside toolbar chrome and the section list is untouched.  A
detached block has a null parent and throws at insertBefore; a
section-anchored non-collapsed range deletes its covered text
(sameNode: the anchorOffset..focusOffset slice of that section's runs;
a cross-node range also removes the sections it fully contains, which
the anchor-only selection model cannot locate - no claim exercises
cross-node Enter). -/
def newLineHandler (st : EditorState) : Outcome Unit :=
  match findParentBlockOf st.sel.anchor with
  | .error _ => .thrown st
  | .ok .root =>
      let p := createTextSection st
      .ok { p.2 with
              doc :=
                if st.sel.collapsed then p.2.doc.take st.sel.anchorOffset
                else p.2.doc.take st.sel.anchorOffset ++ p.2.doc.drop st.sel.focusOffset
              sel := selStartOf .invalid } ()
  | .ok .toolbar => .ok { (createTextSection st).2 with sel := selStartOf .invalid } ()
  | .ok (.sec i) =>
      let p := createTextSection st
      match findSec st.doc i with
      | none => .thrown p.2
      | some s =>
          if st.sel.collapsed then
            let halves := splitRunsAt s.runs st.sel.anchorOffset
            let newPar : Sec := { p.1 with runs := normalizeRuns halves.2 }
            .ok { p.2 with
                    doc := insertAfterSec
                      (updateSec p.2.doc i (fun t => { t with runs := halves.1 })) i newPar
                    sel := selStartOf (.inSec newPar.id) } ()
          else
            let trimmed : List Run :=
              if st.sel.sameNode then
                (splitRunsAt s.runs st.sel.anchorOffset).1
                  ++ (splitRunsAt s.runs st.sel.focusOffset).2
              else s.runs
            .ok { p.2 with
                    doc := insertAfterSec
                      (updateSec p.2.doc i (fun t => { t with runs := trimmed })) i p.1
                    sel := selStartOf (.inSec p.1.id) } ()

/-- insertImage (Editor.js): receives the block the image input was
opened on (currentRange.startContainer) as nextSibling.  An empty target
gets a br appended (presentation-only; textContent is unchanged); when
the target is the remembered $firstSection node the $firstSection
pointer is redirected to the new container; the container wrapping the
img is inserted BEFORE the target, and the selection collapses to the
start of the target.  A target resolving to the inner container inserts
the container outside the section list (chrome-scoped: document
unchanged); a detached target has a null parent and insertBefore throws
after the $firstSection pointer was already redirected; the img onerror
handler (an async host callback that would remove the section again) is
outside the event model. -/
def insertImageEvt (src alt : String) (st : EditorState) : Outcome Unit :=
  match st.sel.anchor with
  | .inSec i =>
      let p := createContainerSection st
      let ctn : Sec := { p.1 with obj := some (.image src alt) }
      let st1 :=
        if (st.firstSection.map Sec.id) = some i then { p.2 with firstSection := some ctn }
        else p.2
      match findSec st.doc i with
      | none => .thrown st1
      | some _ =>
          .ok { st1 with
                  doc := insertBeforeSec st1.doc i ctn
                  sel := selStartOf (.inSec i) } ()
  | .atRoot =>
      let p := createContainerSection st
      .ok { p.2 with sel := selStartOf .atRoot } ()
  | .inToolbar =>
      -- the container lands inside toolbar chrome, outside the section list
      let p := createContainerSection st
      .ok { p.2 with sel := selStartOf .inToolbar } ()
  | .invalid => .thrown st

/-- insertLine: refuses when the resolved block IS the remembered
$firstSection node; otherwise inserts a container wrapping an hr before
the block and collapses the selection to the start of that block.  An
unresolvable selection throws at getRangeAt; root- or toolbar-resolved
blocks put the hr outside the section list (chrome-scoped, document
unchanged); a detached block throws at insertBefore. -/
def insertLineEvt (st : EditorState) : Outcome Bool :=
  match findParentBlockOf st.sel.anchor with
  | .error _ => .thrown st
  | .ok .toolbar =>
      let p := createContainerSection st
      .ok { p.2 with sel := selStartOf .inToolbar } true
  | .ok .root =>
      let p := createContainerSection st
      .ok { p.2 with sel := selStartOf .atRoot } true
  | .ok (.sec i) =>
      if (st.firstSection.map Sec.id) = some i then .ok st false
      else
        let p := createContainerSection st
        let ctn : Sec := { p.1 with obj := some .rule }
        match findSec st.doc i with
        | none => .thrown p.2
        | some _ =>
            .ok { p.2 with
                    doc := insertBeforeSec p.2.doc i ctn
                    sel := selStartOf (.inSec i) } true

/-- Strip every tag from a block (parentnode.innerHTML.replace of all
tags): only the concatenated text survives, as bare text (one plain run,
or none when the text is empty); an atomic child serializes as a tag and
vanishes entirely. -/
def stripTags (s : Sec) : Sec :=
  { s with
      runs := if s.textContent = "" then [] else [plainRun s.textContent]
      obj := none }

/-- The formatBlock target wrapHeading picks from the current tag, and
the class metadata it re-applies afterwards (addClasses skips empty
strings; the class list of the replacement element starts empty because
formatBlock swaps in a fresh element): H2 goes back to options.divOrPar
with options.sectionClass, DIV or P becomes H1 with the large-heading
classes, anything else (H1) becomes H2 with the small-heading classes. -/
def headingParams (st : EditorState) (t : Tag) : Tag × List String :=
  match t with
  | .h2 => (st.opts.divOrPar, st.opts.sectionClass.filter (fun c => c ≠ ""))
  | .div => (.h1, st.opts.largeHeadingClass.filter (fun c => c ≠ ""))
  | .p => (.h1, st.opts.largeHeadingClass.filter (fun c => c ≠ ""))
  | .h1 => (.h2, st.opts.smallHeadingClass.filter (fun c => c ≠ ""))

/-- wrapHeading: strips all markup from the block under the anchor
(parentnode.innerHTML with every tag deleted), then formatBlock swaps
the block for a fresh element with the next tag in the cycle (the model
gives the replacement a fresh id: the old node is gone), re-applies the
class metadata, and collapses the selection after the focus node.  An
unresolvable anchor throws.  An anchor resolving to the inner container
itself (a select-all leaves it there) makes the innerHTML replacement
run on the INNER CONTAINER: every section element is destroyed and only
the loose concatenated text survives as bare text nodes, so the section
list empties; the selection then points into the destroyed tree
(unresolvable in the model) and the subsequent formatBlock on it fails,
skipping the class application and returning false (the stale
$firstSection pointer keeps referencing its detached node, which a
later createFirstTextSection would re-attach).  A toolbar-resolved
anchor rewrites toolbar chrome only; a detached block is
claim-irrelevant and modelled as a no-op. -/
def wrapHeadingEvt (st : EditorState) : Outcome Bool :=
  match findParentBlockOf st.sel.anchor with
  | .error _ => .thrown st
  | .ok .root => .ok { st with doc := [], sel := selStartOf .invalid } false
  | .ok .toolbar => .ok st false
  | .ok (.sec i) =>
      match findSec st.doc i with
      | none => .ok st false
      | some s =>
          let stripped := stripTags s
          let pr := headingParams st s.tag
          let s2 : Sec := { stripped with id := st.nextId, tag := pr.1, classes := pr.2 }
          .ok { st with
                  doc := replaceSec st.doc i s2
                  nextId := st.nextId + 1
                  sel :=
                    { anchor := .inSec s2.id
                      anchorOffset := s2.textContent.length
                      focusOffset := s2.textContent.length
                      sameNode := true
                      collapsed := true } } true

/-- The range wrapLink receives from the toolbar: a character range
inside one section. -/
structure RangeM where
  sec : Nat
  startOff : Nat
  endOff : Nat
  deriving DecidableEq, Repr

/-- True when the character offset k falls strictly inside a marked
(bold / italic / link) run: the range boundary then sits inside the text
node wrapped by that run's innermost element.  Offsets at run
boundaries sit between elements. -/
def strictInsideMarked : List Run → Nat → Bool
  | [], _ => false
  | r :: rest, k =>
      if k = 0 then false
      else if k < r.text.length then !(r.isPlain)
      else strictInsideMarked rest (k - r.text.length)

/-- The index of the run whose span holds the offset (an offset on the
boundary between two runs counts to the earlier one, matching a
boundary at the end of that run's text node). -/
def runIndexAt : List Run → Nat → Nat
  | [], _ => 0
  | r :: rest, k =>
      if k ≤ r.text.length then 0
      else runIndexAt rest (k - r.text.length) + 1

/-- Range.surroundContents' InvalidStateError condition over the flat
run model: the range partially contains a non-Text node exactly when
one boundary lies strictly inside the text node of a marked run and the
other boundary lies outside that run (a boundary strictly inside a
PLAIN run only splits a text node, which is allowed, and a marked run
the range covers wholly is fully contained, also allowed). -/
def rangePartialSelects (rs : List Run) (i j : Nat) : Bool :=
  (strictInsideMarked rs i || strictInsideMarked rs j) && runIndexAt rs i ≠ runIndexAt rs j

/-- wrapLink: validates the url first and returns false without touching
anything when validation fails; otherwise surroundContents wraps the
range content in an anchor carrying the validated href (in the flat run
model the covered runs acquire the link mark) and the selection
collapses to the range end.  surroundContents checks partial
containment FIRST: a range with a boundary strictly inside a marked
run and the other boundary outside that run throws InvalidStateError
before any mutation, and wrapLink has no try block, so the exception
propagates with the document untouched.  A range over a detached or
unknown section cannot be surrounded and throws as well. -/
def wrapLinkEvt (url : String) (rng : RangeM) (st : EditorState) : Outcome (Option String) :=
  match validateURL url with
  | none => .ok st none
  | some u =>
      match findSec st.doc rng.sec with
      | none => .thrown st
      | some s =>
          if rangePartialSelects s.runs rng.startOff rng.endOff then .thrown st
          else
            let pre := splitRunsAt s.runs rng.startOff
            let mid := splitRunsAt pre.2 (rng.endOff - rng.startOff)
            let wrapped := pre.1 ++ mid.1.map (fun r => { r with link := some u }) ++ mid.2
            .ok { st with
                    doc := updateSec st.doc rng.sec (fun t => { t with runs := wrapped })
                    sel :=
                      { anchor := .inSec s.id
                        anchorOffset := rng.endOff
                        focusOffset := rng.endOff
                        sameNode := true
                        collapsed := true } } (some u)

/-- pasteHandler: always prevents the default and re-inserts the
clipboard plain text at the cursor via insertHTML.  The model inserts
the text as bare text at the anchor offset of the anchored section and
leaves the caret collapsed after it (the code strips to text/plain
first; a paste whose text itself contains markup would be interpreted
by insertHTML, and a non-collapsed selection is first replaced - both
content-only discrepancies no claim depends on); without a usable caret
execCommand does nothing. -/
def pasteEvt (text : String) (st : EditorState) : EditorState :=
  match st.sel.anchor with
  | .inSec i =>
      { st with
          doc := updateSec st.doc i (fun s =>
            let halves := splitRunsAt s.runs st.sel.anchorOffset
            { s with runs := halves.1 ++ plainRun text :: halves.2 })
          sel := { st.sel with
                     anchorOffset := st.sel.anchorOffset + text.length
                     focusOffset := st.sel.anchorOffset + text.length
                     sameNode := true
                     collapsed := true } }
  | _ => st

/-- The validity test positionCursor applies to the snapshot: the
remembered prevSection node must exist, still be contained in the inner
container and carry the text-section class.  The inner container
contains itself but never carries the class. -/
def prevSectionValid (st : EditorState) : Bool :=
  match st.prevSection with
  | some (.sec p) =>
      match findSec st.doc p with
      | some s => s.isText
      | none => false
  | _ => false

/-- positionCursor: its own try / catch absorbs an unresolvable anchor
(returns false); anchors in toolbars are left alone.  When the resolved
block is not a text section and not a heading (H1 / H2 are exempted
explicitly; the inner container itself and blocks of unknown class
count as bad - a detached block node is modelled as bad as well), the
cursor is relocated: (a) to the remembered snapshot position when it is
still a valid attached text section, otherwise (b) a fresh text section
is synthesized right after the remembered previous sibling and the
cursor placed at its start - unless no previous sibling was ever
recorded, in which case the function gives up and returns false,
leaving the cursor where it was.  A recorded sibling no longer in the
document was detached by removeChild, so its nextSibling link is null
and the new section is appended at the END of the inner container
instead (sections are only ever detached one at a time, so the stale
link cannot point at another attached node).  relocateCursor is the
relocation branch; positionCursor proper follows it. -/
def relocateCursor (st : EditorState) : Outcome Bool :=
  if prevSectionValid st then
    match st.prevSection with
    | some (.sec p) =>
        .ok { st with
                sel :=
                  { anchor := .inSec p
                    anchorOffset := st.prevOffset
                    focusOffset := st.prevOffset
                    sameNode := true
                    collapsed := true } } true
    | _ => .ok st false
  else
    match st.prevSib with
    | none => .ok st false
    | some q =>
        let p := createTextSection st
        match findSec st.doc q with
        | some _ =>
            .ok { p.2 with
                    doc := insertAfterSec p.2.doc q p.1
                    sel := selStartOf (.inSec p.1.id) } true
        | none =>
            .ok { p.2 with
                    doc := p.2.doc ++ [p.1]
                    sel := selStartOf (.inSec p.1.id) } true

def positionCursorEvt (st : EditorState) : Outcome Bool :=
  match findParentBlockOf st.sel.anchor with
  | .error _ => .ok st false
  | .ok .toolbar => .ok st false
  | .ok t =>
      let bad : Bool :=
        match t with
        | .sec i =>
            match findSec st.doc i with
            | some s => !s.isText && s.tag ≠ .h2 && s.tag ≠ .h1
            | none => true
        | _ => true
      if bad then relocateCursor st else .ok st true

/-! ### Key event handlers (Editor.js keydownHandler / keyupHandler) -/

/-- sel.anchorNode.textContent.length, the right-hand side of the
forward-delete boundary test.  The inner container concatenates all
sections; a toolbar anchor has chrome text the model leaves at zero; a
detached anchored node keeps some text the model cannot see (no claim
reaches that case); dereferencing an invalid anchor throws and is
guarded at the call site. -/
def anchorTextLen (st : EditorState) : Nat :=
  match st.sel.anchor with
  | .inSec i =>
      match findSec st.doc i with
      | some s => s.textContent.length
      | none => 0
  | .atRoot => (st.doc.foldl (fun a s => a ++ s.textContent) "").length
  | _ => 0

/-- Sequence two handler phases, threading the state and stopping at a
throw. -/
def Outcome.then (o : Outcome Bool) (f : EditorState → Bool → Outcome Bool) : Outcome Bool :=
  match o with
  | .thrown st => .thrown st
  | .ok st b => f st b

/-- keydownHandler, deletion phase: a Backspace anchored at offset 0
with anchorNode equal to focusNode, or a Delete anchored at the end of
the anchor text (evaluating that length dereferences the anchor and
throws on an invalid one), triggers deleteContainerSection.  The
modified x that isDeletionKey also accepts matches neither key literal
and does nothing here. -/
def kdDeletionPhase (k : Key) (st : EditorState) : Outcome Bool :=
  if isDeletionKey k then
    if k = .backspace ∧ st.sel.anchorOffset = 0 ∧ st.sel.sameNode then
      deleteContainerSection k st
    else if k = .delete then
      if st.sel.anchor = .invalid then .thrown st
      else if st.sel.anchorOffset = anchorTextLen st ∧ st.sel.sameNode then
        deleteContainerSection k st
      else .ok st false
    else .ok st false
  else .ok st false

/-- keydownHandler, Enter phase: newLineHandler runs for Enter (its
first statement is preventDefault, so Enter is prevented even when the
handler throws later). -/
def kdEnterPhase (k : Key) (st : EditorState) (prevented : Bool) : Outcome Bool :=
  if k = .enter then
    match newLineHandler st with
    | .thrown s => .thrown s
    | .ok s _ => .ok s true
  else .ok st prevented

/-- keydownHandler, container-guard phase. -/
def kdGuardPhase (k : Key) (st : EditorState) (prevented : Bool) : Outcome Bool :=
  match preventTextInContainer k st with
  | .thrown s => .thrown s
  | .ok s p => .ok s (prevented || p)

/-- keydownHandler, snapshot phase: reads the current range (throws
without one), resolves its start block, and unless that block sits in a
toolbar records it (with its previous sibling and the start offset) as
the last-good position.  A block with no recorded sibling and the inner
container (whose previous sibling inside the outer container is null)
record none. -/
def kdSnapshotPhase (st : EditorState) (prevented : Bool) : Outcome Bool :=
  match st.sel.anchor with
  | .invalid => .thrown st
  | a =>
      match findParentBlockOf a with
      | .error _ => .thrown st
      | .ok .toolbar => .ok st prevented
      | .ok t =>
          .ok { st with
                  prevSection := some t
                  prevSib :=
                    match t with
                    | .sec i => (prevSiblingOf st.doc i).map Sec.id
                    | _ => none
                  prevOffset := st.sel.anchorOffset } prevented

/-- keydownHandler: deletion guard, Enter hijack, container guard,
last-good-position snapshot, in source order.  The returned Bool is
whether the default host edit for this keystroke was prevented; every
throwing path leaves the default unprevented (the only preventDefault
that can precede a later throw is the Enter one, and the Enter
keystroke never applies a host default in the event relation below). -/
def keydownEvt (k : Key) (st : EditorState) : Outcome Bool :=
  (((kdDeletionPhase k st).then (kdEnterPhase k)).then (kdGuardPhase k)).then kdSnapshotPhase

/-- keyupHandler: for a deletion key, when the inner container has been
emptied (innerHTML empty or reduced to a bare br - both mean no
sections are left - or the anchor ended up on the inner container
itself) the first text section is re-created, and the first-section
placeholder state is refreshed; then, inside a try block whose catch
swallows everything, the current section is normalized and the cursor
repaired (checkForInsert only toggles toolbar visibility and has no
state in this model). -/
def keyupEvt (k : Key) (st : EditorState) : EditorState :=
  let st1 :=
    if isDeletionKey k then
      let stA :=
        if st.doc.isEmpty ∨ st.sel.anchor = .atRoot then createFirstTextSection st
        else st
      displayFirstSectionPlaceholder stA
    else st
  let st2 := normalizeSectionEvt st1
  (positionCursorEvt st2).state

/-! ### Serialization (Editor.html / Editor.load)

html() clones the inner container, sets contenteditable on the clone and
returns its outerHTML; load() parses a string with DOMParser, takes
body.firstChild, and adopts it as the new inner container when its
classList contains this.classes.main.  The outerHTML serializer and the
DOMParser are browser primitives: the model renders the section list to
markup (text escaped as outerHTML escapes it; presentation attributes
are abstracted away) and parses back with a recursive-descent parser
over the same grammar.  DOMParser is total; inputs outside this grammar
that a browser would still salvage into some element are parsed as none
here, which load treats exactly like a null firstChild (rejected,
document untouched), the same observable result. -/

/-- Escape a character list as outerHTML escapes text nodes and quoted
attribute values. -/
def escapeChars : List Char → List Char
  | [] => []
  | '&' :: cs => '&' :: 'a' :: 'm' :: 'p' :: ';' :: escapeChars cs
  | '<' :: cs => '&' :: 'l' :: 't' :: ';' :: escapeChars cs
  | '>' :: cs => '&' :: 'g' :: 't' :: ';' :: escapeChars cs
  | '"' :: cs => '&' :: 'q' :: 'u' :: 'o' :: 't' :: ';' :: escapeChars cs
  | c :: cs => c :: escapeChars cs

/-- Undo escapeChars. -/
def unescapeChars : List Char → List Char
  | '&' :: 'a' :: 'm' :: 'p' :: ';' :: cs => '&' :: unescapeChars cs
  | '&' :: 'l' :: 't' :: ';' :: cs => '<' :: unescapeChars cs
  | '&' :: 'g' :: 't' :: ';' :: cs => '>' :: unescapeChars cs
  | '&' :: 'q' :: 'u' :: 'o' :: 't' :: ';' :: cs => '"' :: unescapeChars cs
  | c :: cs => c :: unescapeChars cs
  | [] => []

/-- Escape a string for markup output. -/
def esc (s : String) : String := String.mk (escapeChars s.toList)

/-- The serialized tag name. -/
def tagName : Tag → String
  | .div => "div"
  | .p => "p"
  | .h1 => "h1"
  | .h2 => "h2"

/-- JS Array.prototype.join / String.prototype joining with the given
separator (also what an Array coerced to a string produces, with a
comma). -/
def joinSep (sep : String) : List String → String
  | [] => ""
  | [x] => x
  | x :: xs => x ++ sep ++ joinSep sep xs

/-- The class attribute as outerHTML emits it (absent when the class
list is empty). -/
def classAttr (cs : List String) : String :=
  if cs.isEmpty then ""
  else (" class=\"") ++ joinSep (" ") cs ++ ("\"")

/-- Serialize one run: the text nested inside its mark elements. -/
def renderRun (r : Run) : String :=
  let core := esc r.text
  let core :=
    match r.link with
    | some h => ("<a href=\"") ++ esc h ++ ("\">") ++ core ++ ("</a>")
    | none => core
  let core := if r.italic then ("<i>") ++ core ++ ("</i>") else core
  if r.bold then ("<b>") ++ core ++ ("</b>") else core

/-- Serialize an atomic child. -/
def renderObj : Atomic → String
  | .image src alt => ("<img src=\"") ++ esc src ++ ("\" alt=\"") ++ esc alt ++ ("\">")
  | .rule => "<hr>"

/-- Serialize one section. -/
def renderSec (s : Sec) : String :=
  ("<") ++ tagName s.tag ++ classAttr s.classes ++ (">")
    ++ String.join (s.runs.map renderRun)
    ++ (match s.obj with | some o => renderObj o | none => "")
    ++ ("</") ++ tagName s.tag ++ (">")

/-- Serialize the cloned inner container with the given contenteditable
value: class attribute first (addClasses ran before setAttribute at
creation), then contenteditable, then the children. -/
def renderRoot (editable : Bool) (mainClasses : List String) (d : List Sec) : String :=
  ("<div") ++ classAttr (mainClasses.filter (fun c => c ≠ ""))
    ++ (" contenteditable=\"") ++ (if editable then "true" else "false") ++ ("\">")
    ++ String.join (d.map renderSec) ++ ("</div>")

/-- Editor.html(editable): clone the inner container, set
contenteditable on the clone only, return the clone serialized; the
live state is untouched. -/
def htmlOp (editable : Bool) (st : EditorState) : String × EditorState :=
  (renderRoot editable st.mainClasses st.doc, st)

/-- Consume a literal. -/
def dropLit : List Char → List Char → Option (List Char)
  | [], cs => some cs
  | l :: ls, c :: cs => if c = l then dropLit ls cs else none
  | _ :: _, [] => none

/-- Read up to the closing quote of an attribute value. -/
def takeUntilQuote : List Char → Option (List Char × List Char)
  | [] => none
  | '"' :: cs => some ([], cs)
  | c :: cs =>
      match takeUntilQuote cs with
      | some p => some (c :: p.1, p.2)
      | none => none

/-- Read raw text up to the next tag opener (or the end). -/
def takeText : List Char → List Char × List Char
  | [] => ([], [])
  | '<' :: cs => ([], '<' :: cs)
  | c :: cs =>
      let p := takeText cs
      (c :: p.1, p.2)

/-- A parsed tag name. -/
def parseTagName : List Char → Option (Tag × List Char)
  | 'd' :: 'i' :: 'v' :: cs => some (.div, cs)
  | 'p' :: cs => some (.p, cs)
  | 'h' :: '1' :: cs => some (.h1, cs)
  | 'h' :: '2' :: cs => some (.h2, cs)
  | _ => none

/-- Split a character list on spaces. -/
def splitOnSpace : List Char → List (List Char)
  | [] => [[]]
  | ' ' :: cs => [] :: splitOnSpace cs
  | c :: cs =>
      match splitOnSpace cs with
      | g :: gs => (c :: g) :: gs
      | [] => [[c]]

/-- A class attribute value as a DOMTokenList: split on whitespace,
dropping empty tokens. -/
def splitClasses (v : List Char) : List String :=
  ((splitOnSpace v).map (fun g => String.mk g)).filter (fun c => c ≠ "")

/-- The attributes the renderer can emit on a block element. -/
structure AttrData where
  classes : List String
  editable : Bool
  deriving DecidableEq, Repr

/-- Parse the attribute list up to the closing angle bracket. -/
def parseAttrs : Nat → List Char → AttrData → Option (AttrData × List Char)
  | 0, _, _ => none
  | _ + 1, '>' :: cs, a => some (a, cs)
  | f + 1, ' ' :: 'c' :: 'l' :: 'a' :: 's' :: 's' :: '=' :: '"' :: cs, a =>
      match takeUntilQuote cs with
      | some p => parseAttrs f p.2 { a with classes := splitClasses p.1 }
      | none => none
  | f + 1, ' ' :: 'c' :: 'o' :: 'n' :: 't' :: 'e' :: 'n' :: 't' :: 'e' :: 'd' :: 'i' :: 't'
      :: 'a' :: 'b' :: 'l' :: 'e' :: '=' :: '"' :: cs, a =>
      match takeUntilQuote cs with
      | some p => parseAttrs f p.2 { a with editable := p.1 = ['t', 'r', 'u', 'e'] }
      | none => none
  | _, _, _ => none

/-- Parse the optional link layer of a run: an anchor element or bare
text (empty bare text means no run starts here). -/
def parseLinkPart : List Char → Option ((Option String) × String × List Char)
  | '<' :: 'a' :: ' ' :: 'h' :: 'r' :: 'e' :: 'f' :: '=' :: '"' :: cs =>
      match takeUntilQuote cs with
      | some hp =>
          match hp.2 with
          | '>' :: cs2 =>
              let tp := takeText cs2
              match dropLit ['<', '/', 'a', '>'] tp.2 with
              | some cs3 =>
                  some (some (String.mk (unescapeChars hp.1)), String.mk (unescapeChars tp.1), cs3)
              | none => none
          | _ => none
      | none => none
  | cs =>
      let tp := takeText cs
      if tp.1 = [] then none
      else some (none, String.mk (unescapeChars tp.1), tp.2)

/-- Parse the optional italic layer of a run. -/
def parseItalicPart : List Char → Option (Bool × (Option String) × String × List Char)
  | '<' :: 'i' :: '>' :: cs =>
      match parseLinkPart cs with
      | some q =>
          match dropLit ['<', '/', 'i', '>'] q.2.2 with
          | some cs2 => some (true, q.1, q.2.1, cs2)
          | none => none
      | none => none
  | cs =>
      match parseLinkPart cs with
      | some q => some (false, q.1, q.2.1, q.2.2)
      | none => none

/-- Parse one run (bold layer outermost). -/
def parseRun : List Char → Option (Run × List Char)
  | '<' :: 'b' :: '>' :: cs =>
      match parseItalicPart cs with
      | some q =>
          match dropLit ['<', '/', 'b', '>'] q.2.2.2 with
          | some cs2 =>
              some ({ bold := true, italic := q.1, link := q.2.1, text := q.2.2.1 }, cs2)
          | none => none
      | none => none
  | cs =>
      match parseItalicPart cs with
      | some q => some ({ bold := false, italic := q.1, link := q.2.1, text := q.2.2.1 }, q.2.2.2)
      | none => none

/-- Parse a maximal sequence of runs. -/
def parseRuns : Nat → List Char → List Run × List Char
  | 0, cs => ([], cs)
  | f + 1, cs =>
      match parseRun cs with
      | some p =>
          let q := parseRuns f p.2
          (p.1 :: q.1, q.2)
      | none => ([], cs)

/-- Parse an atomic child. -/
def parseObj : List Char → Option (Atomic × List Char)
  | '<' :: 'h' :: 'r' :: '>' :: cs => some (.rule, cs)
  | '<' :: 'i' :: 'm' :: 'g' :: ' ' :: 's' :: 'r' :: 'c' :: '=' :: '"' :: cs =>
      match takeUntilQuote cs with
      | some sp =>
          match dropLit [' ', 'a', 'l', 't', '=', '"'] sp.2 with
          | some cs2 =>
              match takeUntilQuote cs2 with
              | some ap =>
                  match dropLit ['>'] ap.2 with
                  | some cs3 =>
                      some (.image (String.mk (unescapeChars sp.1))
                        (String.mk (unescapeChars ap.1)), cs3)
                  | none => none
              | none => none
          | none => none
      | none => none
  | _ => none

/-- Parse one section element (parsed nodes carry placeholder id 0;
adoption renumbers them). -/
def parseSec (f : Nat) : List Char → Option (Sec × List Char)
  | '<' :: cs =>
      match parseTagName cs with
      | some tp =>
          match parseAttrs f tp.2 { classes := [], editable := false } with
          | some ap =>
              let rp := parseRuns f ap.2
              let op : Option Atomic × List Char :=
                match parseObj rp.2 with
                | some q => (some q.1, q.2)
                | none => (none, rp.2)
              match dropLit (('<' :: '/' :: (tagName tp.1).toList) ++ ['>']) op.2 with
              | some cs2 =>
                  some ({ id := 0, tag := tp.1, classes := ap.1.classes,
                          runs := rp.1, obj := op.1 }, cs2)
              | none => none
          | none => none
      | none => none
  | _ => none

/-- Parse a maximal sequence of sections. -/
def parseSecs : Nat → List Char → List Sec × List Char
  | 0, cs => ([], cs)
  | f + 1, cs =>
      match parseSec (f + 1) cs with
      | some p =>
          let q := parseSecs f p.2
          (p.1 :: q.1, q.2)
      | none => ([], cs)

/-- What DOMParser leaves as body.firstChild: nothing, a bare text node
(any body-level input not opening a tag), a body-level comment node, or
a parsed block element with its class list, contenteditable flag and
child sections. -/
inductive FirstNode
  | textNode (s : String)
  | comment
  | elem (tag : Tag) (classes : List String) (editable : Bool) (secs : List Sec)
  deriving DecidableEq, Repr

/-- Leading HTML whitespace, ignored by the parser's pre-body insertion
modes. -/
def skipWs : List Char → List Char
  | [] => []
  | c :: cs =>
      if c = ' ' ∨ c = '\t' ∨ c = '\n' ∨ c = '\r' then skipWs cs
      else c :: cs

/-- Drop a comment body through its closing marker; none when the
comment never closes (it then swallows the whole rest of the input). -/
def dropComment : List Char → Option (List Char)
  | [] => none
  | c :: cs =>
      if c = '-' then
        match cs with
        | '-' :: '>' :: rest => some rest
        | _ => dropComment cs
      else dropComment cs

/-- The before-body insertion modes: whitespace is ignored and comments
are hoisted out of the body, so body content starts at the first real
token (an unterminated comment leaves the body empty). -/
def stripPre : Nat → List Char → List Char
  | 0, cs => cs
  | f + 1, cs =>
      let cs1 := skipWs cs
      match cs1 with
      | '<' :: '!' :: '-' :: '-' :: rest =>
          (match dropComment rest with
           | some cs2 => stripPre f cs2
           | none => [])
      | _ => cs1

/-- Parse body content (everything after the pre-body modes, or after
an explicit body tag): a leading comment is body.firstChild; a tag
opens the block-element grammar; anything else, whitespace included, is
a bare text node. -/
def parseBodyContent (fuel : Nat) : List Char → Option FirstNode
  | [] => none
  | '<' :: '!' :: '-' :: '-' :: _ => some .comment
  | '<' :: cs =>
      (match parseTagName cs with
       | some tp =>
           match parseAttrs fuel tp.2 { classes := [], editable := false } with
           | some ap =>
               let kids := parseSecs fuel ap.2
               match dropLit (('<' :: '/' :: (tagName tp.1).toList) ++ ['>']) kids.2 with
               | some rest =>
                   if rest = [] then
                     some (.elem tp.1 ap.1.classes ap.1.editable
                       ((kids.1.enum.map (fun q => { q.2 with id := q.1 }))))
                   else none
               | none => none
           | none => none
       | none => none)
  | cs => some (.textNode (String.mk cs))

/-- DOMParser + body.firstChild over the renderable grammar: leading
whitespace and comments before the body are dropped (hoisted out of it),
an explicit body open tag switches straight to body content (whitespace
and comments after it ARE body children), and the first body child is
classified.  Inputs outside this grammar that a browser would salvage
into some ELEMENT first child come back as none here, which load treats
exactly like a null or fingerprint-lacking first child (rejected,
document untouched) - the same observable result; text-node and
comment first children, the throwing shapes, are classified exactly
over the modelled grammar. -/
def parseSnapshot (s : String) : Option FirstNode :=
  let cs0 := stripPre s.length s.toList
  match dropLit ('<' :: 'b' :: 'o' :: 'd' :: 'y' :: '>' :: []) cs0 with
  | some rest => parseBodyContent s.length rest
  | none => parseBodyContent s.length cs0

/-- Editor.load: parse the snapshot, take body.firstChild.  A null first
child falls through and load reports false with the document untouched.
A text-node or comment first child has no classList, so the containment
test dereferences undefined and throws a TypeError (the try block two
lines earlier does not cover it).  For an element, classList.contains
is called with this.classes.main - an ARRAY, which the DOM coerces to
the comma-joined string - so adoption happens only when the class list
carries that literal comma-joined token; then the outer container is
cleared and the parsed element becomes the inner container wholesale
(no partial adoption).  The stale $firstSection / snapshot references
keep pointing at the discarded tree, faithfully left unchanged. -/
def load (s : String) (st : EditorState) : Outcome Bool :=
  match parseSnapshot s with
  | none => .ok st false
  | some (.textNode _) => .thrown st
  | some .comment => .thrown st
  | some (.elem _ classes editable secs) =>
      if classes.contains (joinSep (",") st.mainClasses) then
        .ok { st with doc := secs, rootEditable := editable } true
      else .ok st false

/-! ### Initialization and the event relation -/

/-- initWFEditor with main.js defaults: an empty contenteditable inner
container receives its first text section and the selection collapses
into it. -/
def initState : EditorState :=
  createFirstTextSection
    { opts := defaultOptions
      mainClasses := generateMainClasses defaultOptions
      rootEditable := true
      doc := []
      sel := selStartOf .invalid
      firstSection := none
      prevSection := none
      prevOffset := 0
      prevSib := none
      nextId := 0 }

/-- One deletion keystroke: keydown runs first; unless it prevented the
default (an exception thrown inside the keydown listener does not
prevent it, and on every throwing keydown path here nothing was
prevented), the host applies its native deletion - an arbitrary
rewrite of the child list and selection supplied by the environment -
and keyup runs last. -/
def deletionKeystroke (k : Key) (hostDoc : List Sec) (hostSel : Sel)
    (st : EditorState) : EditorState :=
  match keydownEvt k st with
  | .thrown st1 => keyupEvt k { st1 with doc := hostDoc, sel := hostSel }
  | .ok st1 prevented =>
      keyupEvt k (if prevented then st1 else { st1 with doc := hostDoc, sel := hostSel })

/-- One Enter keystroke: newLineHandler always prevents the native
newline, so no host edit applies. -/
def enterKeystroke (st : EditorState) : EditorState :=
  keyupEvt .enter (keydownEvt .enter st).state

/-- One printing keystroke: unless keydown prevented the default the
host inserts text, a content-only rewrite of some sections (node
identity is untouched by typing) plus a caret move. -/
def charKeystroke (k : Key) (eff : Nat → Option (List Run)) (hostSel : Sel)
    (st : EditorState) : EditorState :=
  let typed : EditorState → EditorState := fun s =>
    { s with
        doc := s.doc.map (fun x =>
          match eff x.id with
          | some rs => { x with runs := rs }
          | none => x)
        sel := hostSel }
  match keydownEvt k st with
  | .thrown st1 => keyupEvt k (typed st1)
  | .ok st1 prevented => keyupEvt k (if prevented then st1 else typed st1)

/-- One arrow keystroke: the host default is only a caret move. -/
def arrowKeystroke (k : Key) (hostSel : Sel) (st : EditorState) : EditorState :=
  match keydownEvt k st with
  | .thrown st1 => keyupEvt k { st1 with sel := hostSel }
  | .ok st1 prevented =>
      keyupEvt k (if prevented then st1 else { st1 with sel := hostSel })

/-- One editor event.  Together with the keystrokes these cover every
handler that can change the modelled state: paste (always prevented,
re-inserted as text), mouseup (positionCursor; click also runs
checkForInsert, which only toggles toolbar visibility), selectionchange
(the handler itself only toggles the toolbar; the step records the
arbitrary user-driven selection move, which may land anywhere,
including inside a container section), the insert-toolbar operations
(guarded by checkForInsert having displayed the toolbar: a collapsed
selection in an empty block; the rule button is additionally disabled
on the first child), the edit-toolbar operations (guarded by a
selection inside the editor: wrapHeading fires on any anchor the
edit toolbar can see, a section-resolved one or the inner container
itself after a select-all, and wrapLink carries the range's section
anchor), and the
host-delegated format commands (bold / italic / removeLink), which are
content-only rewrites of inline runs.  Editor.load is the public
deserialize entry point, not an editing event, and is not part of this
relation. -/
inductive Step : EditorState → EditorState → Prop
  | delKey (k : Key) (hostDoc : List Sec) (hostSel : Sel) (st : EditorState)
      (hk : isDeletionKey k = true) :
      Step st (deletionKeystroke k hostDoc hostSel st)
  | enterKey (st : EditorState) :
      Step st (enterKeystroke st)
  | charKey (c : Char) (eff : Nat → Option (List Run)) (hostSel : Sel) (st : EditorState) :
      Step st (charKeystroke (.char c) eff hostSel st)
  | arrowKey (k : Key) (hostSel : Sel) (st : EditorState)
      (ha : k = .arrowUp ∨ k = .arrowDown ∨ k = .arrowLeft ∨ k = .arrowRight) :
      Step st (arrowKeystroke k hostSel st)
  | paste (text : String) (st : EditorState) :
      Step st (pasteEvt text st)
  | mouseup (st : EditorState) :
      Step st (positionCursorEvt st).state
  | selChange (newSel : Sel) (st : EditorState) :
      Step st { st with sel := newSel }
  | insertImg (rawSrc url alt : String) (st : EditorState) (i : Nat)
      (hv : validateURL rawSrc = some url)
      (ha : st.sel.anchor = .inSec i)
      (hc : st.sel.collapsed = true)
      (he : (findSec st.doc i).map Sec.textContent = some "") :
      Step st (insertImageEvt url alt st).state
  | insertRule (st : EditorState) (i : Nat)
      (ha : st.sel.anchor = .inSec i)
      (hc : st.sel.collapsed = true)
      (he : (findSec st.doc i).map Sec.textContent = some "")
      (hnf : (st.doc.head?.map Sec.id) ≠ some i) :
      Step st (insertLineEvt st).state
  | heading (st : EditorState)
      (ha : (∃ i, st.sel.anchor = .inSec i) ∨ st.sel.anchor = .atRoot) :
      Step st (wrapHeadingEvt st).state
  | link (url : String) (rng : RangeM) (st : EditorState)
      (ha : st.sel.anchor = .inSec rng.sec) :
      Step st (wrapLinkEvt url rng st).state
  | hostFormat (eff : Nat → Option (List Run)) (st : EditorState) :
      Step st
        { st with
            doc := st.doc.map (fun x =>
              match eff x.id with
              | some rs => { x with runs := rs }
              | none => x) }

/-- The editor states reachable from initialization through the event
relation. -/
inductive Reachable : EditorState → Prop
  | init : Reachable initState
  | step {s t : EditorState} : Reachable s → Step s t → Reachable t

/-! ### Positional helpers -/

theorem idxOfSec_lt_length {d : List Sec} {i j : Nat}
    (h : idxOfSec d i = some j) : j < d.length := by
  induction d generalizing j with
  | nil => simp [idxOfSec] at h
  | cons s rest ih =>
      by_cases hs : s.id = i
      · simp only [idxOfSec, hs, if_pos, Option.some.injEq] at h
        subst h
        simp
      · simp only [idxOfSec, hs, if_neg, Option.map_eq_some', not_false_iff] at h
        obtain ⟨j0, hj0, rfl⟩ := h
        have := ih hj0
        simp only [List.length_cons]
        omega

theorem idxOfSec_none_of_findSec {d : List Sec} {i : Nat}
    (h : findSec d i = none) : idxOfSec d i = none := by
  induction d with
  | nil => simp [idxOfSec]
  | cons s rest ih =>
      unfold findSec at h ih
      rw [List.find?_cons] at h
      by_cases hs : s.id = i
      · simp [hs] at h
      · simp only [hs, decide_eq_false, Bool.false_eq_true] at h
        simp [idxOfSec, hs, ih h]

/-! ### Claims -/

/-- C1, amended: the claim of the frozen list fails in both universal
parts, and only its re-creation clause survives.  After a deletion
keystroke that emptied the inner container, the key-up handler
re-inserts the remembered first-section node emptied - an empty
TextSection whenever that node carries the text-section class (it does
unless an image was inserted before the first section, see the
counterexample).  Neither invariant holds of all reachable states:
sections[0] need not be a TextSection (an image inserted into the
first section lands before it), and the section list can even empty
out entirely - a root-anchored select-all followed by Enter has
newLineHandler delete every section, and the Enter key-up does not
re-create the first section because Enter is not a deletion key; both
states are exhibited by the counterexample. -/
theorem C1_amended :
    ∀ (st : EditorState) (k : Key) (fs : Sec),
      isDeletionKey k = true → st.doc = [] → st.firstSection = some fs →
      fs.isText = true →
      (keyupEvt k st).doc = [{ fs with runs := [], obj := none }] ∧
      Sec.isText { fs with runs := [], obj := none } = true ∧
      Sec.textContent { fs with runs := [], obj := none } = "" := by
  intro st k fs hk hdoc hfs hft
  refine ⟨?_, by simpa [Sec.isText] using hft, by simp [Sec.textContent]⟩
  simp only [keyupEvt, hk, if_pos, hdoc, List.isEmpty_nil, true_or, if_true,
    createFirstTextSection, hfs, removeSec, List.filter_nil]
  have hmem : textSectionClass ∈ fs.classes := by
    simpa [Sec.isText] using hft
  simp [displayFirstSectionPlaceholder, normalizeSectionEvt, positionCursorEvt,
    findParentBlockOf, findSec, updateSec, selStartOf, Outcome.state, hft, hmem,
    Sec.isText, Sec.textContent, normalizeRuns]

/-- Witness for C1_amended: a deletion key-up on an emptied container
restores the single empty first text section. -/
theorem C1_amended_witness :
    (keyupEvt .backspace { initState with doc := [] }).doc =
      [{ id := 0, tag := .p, classes := [textSectionClass], runs := [], obj := none }] := by
  have h := (C1_amended { initState with doc := [] } .backspace
    { id := 0, tag := .p, classes := [textSectionClass], runs := [], obj := none }
    (by decide) rfl (by decide) (by decide)).1
  simpa using h

/-- The state reached by inserting an image while the cursor sits in the
single empty first text section (the exact flow the insert toolbar
drives): the container is inserted before the first section. -/
def c1Bad : EditorState := (insertImageEvt ("http://a.b/c.png") ("pic") initState).state

/-- The root-anchored select-all selection: anchor and focus on the
inner container, spanning all of its children. -/
def selectAllSel : Sel :=
  { anchor := .atRoot, anchorOffset := 0, focusOffset := 1, sameNode := true, collapsed := false }

/-- The state reached from the fresh editor by a select-all (a
selection change anchoring at the inner container and covering its one
section) followed by the Enter keystroke: newLineHandler deletes every
covered section and the Enter key-up does not restore. -/
def c1Empty : EditorState := enterKeystroke { initState with sel := selectAllSel }

/-- C1 counterexample: c1Bad is reachable, yet its first section is the
image container, not a TextSection; and c1Empty is reachable, yet its
section list is empty. -/
theorem C1_counterexample :
    (Reachable c1Bad ∧ (c1Bad.doc.head?.map Sec.isText) = some false) ∧
    (Reachable c1Empty ∧ c1Empty.doc = []) := by
  refine ⟨⟨?_, by decide⟩, ?_, by decide⟩
  · exact Reachable.step Reachable.init
      (Step.insertImg ("a.b/c.png") ("http://a.b/c.png") ("pic") initState 0
        (by decide) (by decide) (by decide) (by decide))
  · exact Reachable.step
      (Reachable.step Reachable.init (Step.selChange selectAllSel initState))
      (Step.enterKey _)

/-- C2 counterexample: on the single-empty-TextSection document,
inserting an image before the first section produces TWO sections with
the container FIRST - not the claimed
[TextSection, ContainerSection, TextSection] with a TextSection still
first. -/
theorem C2_counterexample :
    (insertImageEvt ("http://x.y/i.png") ("alt") initState).state.doc.length = 2 ∧
    ((insertImageEvt ("http://x.y/i.png") ("alt") initState).state.doc.head?.map Sec.isText)
      = some false ∧
    ((insertImageEvt ("http://x.y/i.png") ("alt") initState).state.doc.head?.map Sec.isCtn)
      = some true := by
  decide

/-- C2, amended: on a single-empty-TextSection document, insertImage
yields [ContainerSection(Image), TextSection]: the empty TextSection
sits immediately AFTER the new container, no TextSection is created
before it, sections[0] becomes the ContainerSection, and the remembered
first-section pointer is redirected to the container. -/
theorem C2_amended (st : EditorState) (t : Sec) (src alt : String)
    (hdoc : st.doc = [t])
    (ht : t.isText = true)
    (hempty : t.textContent = "")
    (hfs : st.firstSection = some t)
    (ha : st.sel.anchor = .inSec t.id) :
    ∃ ctn : Sec,
      insertImageEvt src alt st =
        .ok { st with
                doc := [ctn, t]
                firstSection := some ctn
                nextId := st.nextId + 1
                sel := selStartOf (.inSec t.id) } () ∧
      ctn.isCtn = true ∧ ctn.isText = false ∧ ctn.obj = some (.image src alt) := by
  refine ⟨{ id := st.nextId, tag := .div, classes := [containerSectionClass],
            runs := [], obj := some (.image src alt) }, ?_, rfl, rfl, rfl⟩
  simp [insertImageEvt, ha, hdoc, hfs, findSec, createContainerSection, insertBeforeSec]

/-- Witness for C2_amended at the freshly initialized editor. -/
theorem C2_amended_witness :
    ∃ ctn : Sec,
      insertImageEvt ("http://x.y/i.png") ("alt") initState =
        .ok { initState with
                doc := [ctn, { id := 0, tag := .p, classes := [textSectionClass],
                               runs := [], obj := none }]
                firstSection := some ctn
                nextId := initState.nextId + 1
                sel := selStartOf (.inSec 0) } () ∧
      ctn.isCtn = true ∧ ctn.isText = false ∧
      ctn.obj = some (.image ("http://x.y/i.png") ("alt")) :=
  C2_amended initState
    { id := 0, tag := .p, classes := [textSectionClass], runs := [], obj := none }
    ("http://x.y/i.png") ("alt") (by decide) (by decide) (by decide) (by decide) (by decide)

/-- C3 (code bug): deserializing the editor's own serialization is
rejected.  The snapshot parses fine and its root carries the wf__editor
class, but load calls classList.contains with this.classes.main - the
ARRAY of class names - which the DOM coerces to the comma-joined string
(here the literal token with a trailing comma, because the default
containerClass pushes an empty string); no genuine class list carries
that token, so load returns false and leaves the document untouched,
contradicting both the claim and the doc comment of load itself. -/
theorem C3_roundtrip_rejected :
    load (htmlOp false initState).1 initState = Outcome.ok initState false ∧
    joinSep (",") initState.mainClasses = ("wf__editor,") ∧
    parseSnapshot (htmlOp false initState).1 =
      some (.elem .div ["wf__editor"] false
        [{ id := 0, tag := .p, classes := [textSectionClass], runs := [], obj := none }]) := by
  decide

/-- C4 counterexample: the snapshot string hello lacks the root
fingerprint, but load does not return false - DOMParser yields a bare
text node, the node has no classList, and the containment test throws a
TypeError (outside the try block); a body-level comment first child
throws the same way; the document is left unmodified in both cases. -/
theorem C4_counterexample :
    load ("hello") initState = Outcome.thrown initState ∧
    load ("<body><!--c-->") initState = Outcome.thrown initState := by
  decide

/-- The five observable outcomes of load, by parse shape. -/
theorem load_cases (s : String) (st : EditorState) :
    (parseSnapshot s = none ∧ load s st = .ok st false) ∨
    (∃ txt, parseSnapshot s = some (.textNode txt) ∧ load s st = .thrown st) ∨
    (parseSnapshot s = some .comment ∧ load s st = .thrown st) ∨
    (∃ tg cls ed secs, parseSnapshot s = some (.elem tg cls ed secs) ∧
      ((cls.contains (joinSep (",") st.mainClasses) = true ∧
          load s st = .ok { st with doc := secs, rootEditable := ed } true) ∨
        (cls.contains (joinSep (",") st.mainClasses) = false ∧
          load s st = .ok st false))) := by
  cases hp : parseSnapshot s with
  | none => exact Or.inl ⟨rfl, by simp [load, hp]⟩
  | some fn =>
    cases fn with
    | textNode txt => exact Or.inr (Or.inl ⟨txt, rfl, by simp [load, hp]⟩)
    | comment => exact Or.inr (Or.inr (Or.inl ⟨rfl, by simp [load, hp]⟩))
    | elem tg cls ed secs =>
        by_cases hc : cls.contains (joinSep (",") st.mainClasses) = true
        · refine Or.inr (Or.inr (Or.inr ⟨tg, cls, ed, secs, rfl, Or.inl ⟨hc, ?_⟩⟩))
          simp only [load, hp]
          rw [if_pos hc]
        · have hc2 : cls.contains (joinSep (",") st.mainClasses) = false := by
            simpa using hc
          refine Or.inr (Or.inr (Or.inr ⟨tg, cls, ed, secs, rfl, Or.inr ⟨hc2, ?_⟩⟩))
          simp only [load, hp]
          rw [if_neg (by simpa using hc2)]

/-- C4, amended: deserialization is atomic - a false return leaves the
state untouched, the TypeError raised on a snapshot whose first body
child is a bare text node or a comment leaves the state untouched, and
a true return adopts the parsed sections wholesale (only when the root
class list carries the coerced array fingerprint); but a
fingerprint-lacking input is not guaranteed a false RETURN, since
text-node and comment snapshots throw instead. -/
theorem C4_amended (s : String) (st : EditorState) :
    (∀ st2 b, load s st = .ok st2 b → b = false → st2 = st) ∧
    (∀ st2, load s st = .thrown st2 →
      st2 = st ∧ ((∃ txt, parseSnapshot s = some (.textNode txt)) ∨
        parseSnapshot s = some .comment)) ∧
    (∀ st2, load s st = .ok st2 true →
      ∃ tg cls ed secs, parseSnapshot s = some (.elem tg cls ed secs) ∧
        cls.contains (joinSep (",") st.mainClasses) = true ∧
        st2 = { st with doc := secs, rootEditable := ed }) := by
  rcases load_cases s st with ⟨hp, hl⟩ | ⟨txt, hp, hl⟩ | ⟨hp, hl⟩ |
    ⟨tg, cls, ed, secs, hp, ⟨hc, hl⟩ | ⟨hc, hl⟩⟩
  · refine ⟨?_, ?_, ?_⟩
    · intro st2 b h hb
      rw [hl] at h
      injection h with h1 h2
      exact h1.symm
    · intro st2 h
      rw [hl] at h
      simp at h
    · intro st2 h
      rw [hl] at h
      injection h with h1 h2
      simp at h2
  · refine ⟨?_, ?_, ?_⟩
    · intro st2 b h hb
      rw [hl] at h
      simp at h
    · intro st2 h
      rw [hl] at h
      injection h with h1
      exact ⟨h1.symm, Or.inl ⟨txt, hp⟩⟩
    · intro st2 h
      rw [hl] at h
      simp at h
  · refine ⟨?_, ?_, ?_⟩
    · intro st2 b h hb
      rw [hl] at h
      simp at h
    · intro st2 h
      rw [hl] at h
      injection h with h1
      exact ⟨h1.symm, Or.inr hp⟩
    · intro st2 h
      rw [hl] at h
      simp at h
  · refine ⟨?_, ?_, ?_⟩
    · intro st2 b h hb
      rw [hl] at h
      injection h with h1 h2
      rw [hb] at h2
      simp at h2
    · intro st2 h
      rw [hl] at h
      simp at h
    · intro st2 h
      rw [hl] at h
      injection h with h1 h2
      exact ⟨tg, cls, ed, secs, hp, hc, h1.symm⟩
  · refine ⟨?_, ?_, ?_⟩
    · intro st2 b h hb
      rw [hl] at h
      injection h with h1 h2
      exact h1.symm
    · intro st2 h
      rw [hl] at h
      simp at h
    · intro st2 h
      rw [hl] at h
      injection h with h1 h2
      simp at h2

/-- Witness for C4_amended at the rejected and the thrown inputs. -/
theorem C4_amended_witness :
    ((∀ st2 b, load ("hello") initState = .ok st2 b → b = false → st2 = initState) ∧
      (∀ st2, load ("hello") initState = .thrown st2 →
        st2 = initState ∧ ((∃ txt, parseSnapshot ("hello") = some (.textNode txt)) ∨
          parseSnapshot ("hello") = some .comment))) ∧
    (∀ st2 b, load ("<p></p>") initState = .ok st2 b → b = false → st2 = initState) :=
  ⟨⟨(C4_amended ("hello") initState).1, (C4_amended ("hello") initState).2.1⟩,
    (C4_amended ("<p></p>") initState).1⟩

/-- C9 counterexample: with a selection that has no block-level
ancestor (a null anchor), deleteContainerSection propagates a TypeError
out of findParentBlock instead of returning normally. -/
theorem C9_counterexample :
    deleteContainerSection .backspace { initState with sel := selStartOf .invalid } =
      .thrown { initState with sel := selStartOf .invalid } := by
  decide

/-- C9, amended: the structural operations do not uniformly absorb
errors.  positionCursor absorbs an unresolvable cursor (its own try /
catch) and a stale section id is a benign no-op for
deleteContainerSection, normalizeSection never escapes its own try
block (it is a total content-only pass here: section count and
selection are untouched), and an invalid URL makes wrapLink a pure
no-op - but an unresolvable selection makes deleteContainerSection,
preventTextInContainer, insertLine, insertImage and wrapHeading
propagate the TypeError from findParentBlock / getRangeAt to the
caller. -/
theorem C9_amended :
    (∀ st : EditorState, st.sel.anchor = .invalid → positionCursorEvt st = .ok st false) ∧
    (∀ (st : EditorState) (i : Nat) (k : Key), st.sel.anchor = .inSec i →
      findSec st.doc i = none → deleteContainerSection k st = .ok st false) ∧
    (∀ st : EditorState, (normalizeSectionEvt st).doc.length = st.doc.length ∧
      (normalizeSectionEvt st).sel = st.sel) ∧
    (∀ (url : String) (rng : RangeM) (st : EditorState), hasDot url = false →
      wrapLinkEvt url rng st = .ok st none) ∧
    (∀ (st : EditorState) (k : Key) (src alt : String), st.sel.anchor = .invalid →
      deleteContainerSection k st = .thrown st ∧
      preventTextInContainer k st = .thrown st ∧
      insertLineEvt st = .thrown st ∧
      insertImageEvt src alt st = .thrown st ∧
      wrapHeadingEvt st = .thrown st) := by
  refine ⟨?_, ?_, ?_, ?_, ?_⟩
  · intro st ha
    simp [positionCursorEvt, ha, findParentBlockOf]
  · intro st i k ha hfs
    cases k <;> simp [deleteContainerSection, ha, findParentBlockOf, idxOfSec_none_of_findSec hfs]
  · intro st
    cases ha : st.sel.anchor <;> simp [normalizeSectionEvt, ha, updateSec]
  · intro url rng st hd
    simp [wrapLinkEvt, validateURL, hd]
  · intro st k src alt ha
    refine ⟨?_, ?_, ?_, ?_, ?_⟩ <;>
      simp [deleteContainerSection, preventTextInContainer, insertLineEvt, insertImageEvt,
        wrapHeadingEvt, ha, findParentBlockOf]

/-- Witness for C9_amended at concrete inputs. -/
theorem C9_amended_witness :
    positionCursorEvt { initState with sel := selStartOf .invalid } =
      .ok { initState with sel := selStartOf .invalid } false ∧
    deleteContainerSection .delete { initState with sel := selStartOf (.inSec 77) } =
      .ok { initState with sel := selStartOf (.inSec 77) } false ∧
    wrapLinkEvt ("not a url") { sec := 0, startOff := 0, endOff := 0 } initState =
      .ok initState none ∧
    preventTextInContainer .backspace { initState with sel := selStartOf .invalid } =
      .thrown { initState with sel := selStartOf .invalid } :=
  ⟨C9_amended.1 _ rfl,
    (C9_amended.2.1) _ 77 .delete rfl (by decide),
    (C9_amended.2.2.2.1) ("not a url") _ initState (by decide),
    ((C9_amended.2.2.2.2) { initState with sel := selStartOf .invalid } .backspace
      ("x.y") ("a") rfl).2.1⟩

theorem idxOfSec_append_cons (a : List Sec) (s : Sec) (b : List Sec)
    (ha : ∀ x ∈ a, x.id ≠ s.id) : idxOfSec (a ++ s :: b) s.id = some a.length := by
  induction a with
  | nil => simp [idxOfSec]
  | cons x xs ih =>
      have hx : x.id ≠ s.id := ha x (by simp)
      simp [idxOfSec, hx, ih (fun y hy => ha y (by simp [hy]))]

theorem getElem?_append_length (a : List Sec) (s : Sec) (b : List Sec) :
    (a ++ s :: b)[a.length]? = some s := by
  induction a with
  | nil => simp
  | cons x xs ih => simpa using ih

theorem getElem?_append_length_succ (a : List Sec) (s c : Sec) (b : List Sec) :
    (a ++ s :: c :: b)[a.length + 1]? = some c := by
  induction a with
  | nil => simp
  | cons x xs ih => simpa using ih

theorem eraseIdx_append_cons (a : List Sec) (c : Sec) (b : List Sec) :
    (a ++ c :: b).eraseIdx a.length = a ++ b := by
  induction a with
  | nil => rfl
  | cons x xs ih => simp [List.eraseIdx, ih]

theorem findSec_append_cons (a : List Sec) (s : Sec) (b : List Sec)
    (ha : ∀ x ∈ a, x.id ≠ s.id) : findSec (a ++ s :: b) s.id = some s := by
  induction a with
  | nil => simp [findSec, List.find?_cons]
  | cons x xs ih =>
      have hx : x.id ≠ s.id := ha x (by simp)
      unfold findSec at ih ⊢
      rw [List.cons_append, List.find?_cons]
      simp only [hx, decide_eq_false, Bool.false_eq_true]
      exact ih (fun y hy => ha y (by simp [hy]))

/-- C5: on a collapsed selection (anchor and focus on the same node) at
a TextSection boundary, a Delete keystroke at the end of the text with
a container section immediately next, or a Backspace keystroke at
offset 0 with a container section immediately before, removes that
whole container during keydown and reports the default as prevented
(suppressing the host's own deletion); the surrounding sections and the
boundary TextSection itself survive unchanged. -/
theorem C5_delete_adjacent_container
    (a b : List Sec) (s c : Sec) (st : EditorState)
    (hs_text : s.isText = true) (hs_nc : s.isCtn = false) (hc : c.isCtn = true)
    (hu_a : ∀ x ∈ a, x.id ≠ s.id) (hu_c : c.id ≠ s.id)
    (ha : st.sel.anchor = .inSec s.id) (hsame : st.sel.sameNode = true) :
    (st.doc = a ++ s :: c :: b → st.sel.anchorOffset = s.textContent.length →
      ∃ st2, keydownEvt .delete st = .ok st2 true ∧ st2.doc = a ++ s :: b) ∧
    (st.doc = a ++ c :: s :: b → st.sel.anchorOffset = 0 →
      ∃ st2, keydownEvt .backspace st = .ok st2 true ∧ st2.doc = a ++ s :: b) := by
  constructor
  · intro hdoc hoff
    have hidx : idxOfSec st.doc s.id = some a.length := by
      rw [hdoc]
      exact idxOfSec_append_cons a s (c :: b) hu_a
    have hget : st.doc[a.length + 1]? = some c := by
      rw [hdoc]
      exact getElem?_append_length_succ a s c b
    have herase : st.doc.eraseIdx (a.length + 1) = a ++ s :: b := by
      rw [hdoc]
      have h2 := eraseIdx_append_cons (a ++ [s]) c b
      simpa using h2
    have hfind : findSec st.doc s.id = some s := by
      rw [hdoc]
      exact findSec_append_cons a s (c :: b) hu_a
    have hlen : anchorTextLen st = s.textContent.length := by
      simp [anchorTextLen, ha, hfind]
    have hdcs : deleteContainerSection .delete st =
        .ok { st with doc := a ++ s :: b } true := by
      simp [deleteContainerSection, ha, findParentBlockOf, hidx, hget, hc, herase]
    have hph1 : kdDeletionPhase .delete st = .ok { st with doc := a ++ s :: b } true := by
      simp [kdDeletionPhase, isDeletionKey, ha, hoff, hlen, hsame, hdcs]
    have hfind2 : findSec (a ++ s :: b) s.id = some s :=
      findSec_append_cons a s b hu_a
    have hptc : preventTextInContainer .delete { st with doc := a ++ s :: b } =
        .ok { st with doc := a ++ s :: b } false := by
      simp [preventTextInContainer, ha, findParentBlockOf, hfind2, hs_nc]
    refine ⟨{ st with
              doc := a ++ s :: b
              prevSection := some (.sec s.id)
              prevSib := (prevSiblingOf (a ++ s :: b) s.id).map Sec.id
              prevOffset := st.sel.anchorOffset }, ?_, rfl⟩
    simp [keydownEvt, Outcome.then, hph1, kdEnterPhase, kdGuardPhase, hptc,
      kdSnapshotPhase, ha, findParentBlockOf]
  · intro hdoc hoff
    have hidx : idxOfSec st.doc s.id = some (a.length + 1) := by
      rw [hdoc]
      have h2 := idxOfSec_append_cons (a ++ [c]) s b
        (by
          intro y hy
          rcases List.mem_append.mp hy with hy | hy
          · exact hu_a y hy
          · simpa [List.mem_singleton.mp hy] using hu_c)
      simpa using h2
    have hget : st.doc[a.length]? = some c := by
      rw [hdoc]
      exact getElem?_append_length a c (s :: b)
    have herase : st.doc.eraseIdx a.length = a ++ s :: b := by
      rw [hdoc]
      exact eraseIdx_append_cons a c (s :: b)
    have hdcs : deleteContainerSection .backspace st =
        .ok { st with doc := a ++ s :: b } true := by
      simp [deleteContainerSection, ha, findParentBlockOf, hidx, hget, hc, herase]
    have hph1 : kdDeletionPhase .backspace st = .ok { st with doc := a ++ s :: b } true := by
      simp [kdDeletionPhase, isDeletionKey, hoff, hsame, hdcs]
    have hfind2 : findSec (a ++ s :: b) s.id = some s :=
      findSec_append_cons a s b hu_a
    have hptc : preventTextInContainer .backspace { st with doc := a ++ s :: b } =
        .ok { st with doc := a ++ s :: b } false := by
      simp [preventTextInContainer, ha, findParentBlockOf, hfind2, hs_nc]
    refine ⟨{ st with
              doc := a ++ s :: b
              prevSection := some (.sec s.id)
              prevSib := (prevSiblingOf (a ++ s :: b) s.id).map Sec.id
              prevOffset := st.sel.anchorOffset }, ?_, rfl⟩
    simp [keydownEvt, Outcome.then, hph1, kdEnterPhase, kdGuardPhase, hptc,
      kdSnapshotPhase, ha, findParentBlockOf]

/-- Witness for C5: Scenario D - document [TextSection(empty),
ContainerSection(Rule)], cursor at the start (= end) of the text
section, Delete removes the rule container and the document becomes the
single empty TextSection. -/
theorem C5_witness :
    ∃ st2,
      keydownEvt .delete
        { initState with
            doc := [{ id := 0, tag := .p, classes := [textSectionClass], runs := [], obj := none },
                    { id := 1, tag := .div, classes := [containerSectionClass], runs := [],
                      obj := some .rule }]
            nextId := 2 } = .ok st2 true ∧
      st2.doc = [{ id := 0, tag := .p, classes := [textSectionClass], runs := [], obj := none }] :=
  (C5_delete_adjacent_container []
    [] { id := 0, tag := .p, classes := [textSectionClass], runs := [], obj := none }
    { id := 1, tag := .div, classes := [containerSectionClass], runs := [], obj := some .rule }
    _ (by decide) (by decide) (by decide) (by decide) (by decide) (by decide) (by decide)).1
    (by decide) (by decide)

theorem findSec_insertAfter_fresh (d : List Sec) (q : Nat) (x : Sec)
    (hfresh : ∀ y ∈ d, y.id ≠ x.id) : findSec (insertAfterSec d q x) x.id = some x := by
  induction d with
  | nil => simp [insertAfterSec, findSec, List.find?_cons]
  | cons s rest ih =>
      have hs : s.id ≠ x.id := hfresh s (by simp)
      unfold insertAfterSec
      by_cases hq : s.id = q
      · have hqx : ¬(q = x.id) := by
          rw [← hq]
          exact hs
        simp [hq, findSec, List.find?_cons, hs, hqx]
      · unfold findSec at ih ⊢
        rw [if_neg hq, List.find?_cons]
        simp only [hs, decide_eq_false, Bool.false_eq_true]
        exact ih (fun y hy => hfresh y (by simp [hy]))

theorem createTextSection_isText (st : EditorState) :
    ((createTextSection st).1).isText = true := by
  unfold createTextSection Sec.isText
  by_cases h : st.opts.sectionClass.contains textSectionClass = true
  · simp only [h, if_pos]
    have hm : ("wf__text-section") ∈ st.opts.sectionClass := by simpa using h
    simp [List.mem_filter, hm, textSectionClass]
  · simp only [h, if_neg, Bool.false_eq_true, not_false_iff]
    simp [List.mem_filter, textSectionClass]

/-- The reachable state used against C6: an image inserted into the
fresh editor (container becomes the first section), then a
selection-change (a click on the image) leaves the cursor inside the
container.  No keydown ever ran, so no last-good snapshot exists. -/
def c6Bad : EditorState :=
  { (insertImageEvt ("http://a.b/i.png") ("pic") initState).state with
      sel := selStartOf (.inSec 1) }

/-- C6 counterexample: c6Bad is reachable and its cursor resolves
inside a ContainerSection, yet positionCursor returns false and leaves
the cursor exactly where it was - it does NOT yield a cursor inside
some TextSection, because neither a last-good snapshot nor a
previous-sibling snapshot was ever recorded. -/
theorem C6_counterexample :
    Reachable c6Bad ∧
    ((findSec c6Bad.doc 1).map Sec.isCtn = some true ∧ c6Bad.sel.anchor = .inSec 1) ∧
    positionCursorEvt c6Bad = .ok c6Bad false := by
  refine ⟨?_, by decide, by decide⟩
  exact Reachable.step
    (Reachable.step Reachable.init
      (Step.insertImg ("a.b/i.png") ("http://a.b/i.png") ("pic") initState 0
        (by decide) (by decide) (by decide) (by decide)))
    (Step.selChange (selStartOf (.inSec 1)) _)

/-- C6, amended: when the cursor resolves into an attached
non-text, non-heading block, positionCursor (a) collapses onto the
remembered position when that snapshot is still an attached text
section, else (b) synthesizes a fresh TextSection after the remembered
previous sibling (when one was recorded and is attached) and places the
cursor inside it - it does NOT move to an existing sibling TextSection
- and (c) when no previous-sibling snapshot exists it gives up,
returning false with the cursor left inside the container. -/
theorem C6_amended (st : EditorState) (i : Nat) (s : Sec)
    (ha : st.sel.anchor = .inSec i)
    (hfs : findSec st.doc i = some s)
    (hbad : (!s.isText && s.tag ≠ Tag.h2 && s.tag ≠ Tag.h1) = true) :
    (∀ p, st.prevSection = some (.sec p) → prevSectionValid st = true →
      positionCursorEvt st =
        .ok { st with sel := { anchor := .inSec p, anchorOffset := st.prevOffset,
                               focusOffset := st.prevOffset,
                               sameNode := true, collapsed := true } } true ∧
      ((findSec st.doc p).map Sec.isText) = some true) ∧
    (prevSectionValid st = false → ∀ q, st.prevSib = some q →
      (∃ x, findSec st.doc q = some x) →
      (∀ y ∈ st.doc, y.id ≠ st.nextId) →
      ∃ st2, positionCursorEvt st = .ok st2 true ∧
        st2.sel.anchor = .inSec ((createTextSection st).1).id ∧
        findSec st2.doc ((createTextSection st).1).id = some ((createTextSection st).1) ∧
        ((createTextSection st).1).isText = true) ∧
    (prevSectionValid st = false → st.prevSib = none →
      positionCursorEvt st = .ok st false) := by
  refine ⟨?_, ?_, ?_⟩
  · intro p hps hpv
    constructor
    · simp only [positionCursorEvt, ha, findParentBlockOf, hfs, hbad]
      simp [relocateCursor, hpv, hps]
    · have h2 := hpv
      simp only [prevSectionValid, hps] at h2
      cases hq : findSec st.doc p with
      | none =>
          rw [hq] at h2
          simp at h2
      | some x =>
          rw [hq] at h2
          have h3 : x.isText = true := h2
          simp [h3]
  · intro hpv q hq hex hfresh
    obtain ⟨x, hx⟩ := hex
    refine ⟨{ (createTextSection st).2 with
              doc := insertAfterSec (createTextSection st).2.doc q (createTextSection st).1
              sel := selStartOf (.inSec ((createTextSection st).1).id) },
      ?_, rfl, ?_, createTextSection_isText st⟩
    · simp only [positionCursorEvt, ha, findParentBlockOf, hfs, hbad]
      simp [relocateCursor, hpv, hq, hx]
    · exact findSec_insertAfter_fresh st.doc q ((createTextSection st).1)
        (fun y hy => hfresh y hy)
  · intro hpv hq
    simp only [positionCursorEvt, ha, findParentBlockOf, hfs, hbad]
    simp [relocateCursor, hpv, hq]

/-- Witness for C6_amended: a container-anchored cursor with no
snapshots at all stays unrepaired. -/
theorem C6_amended_witness :
    positionCursorEvt
      { initState with
          doc := [{ id := 1, tag := .div, classes := [containerSectionClass], runs := [],
                    obj := some .rule },
                  { id := 0, tag := .p, classes := [textSectionClass], runs := [], obj := none }]
          sel := selStartOf (.inSec 1)
          nextId := 2 } =
      .ok { initState with
              doc := [{ id := 1, tag := .div, classes := [containerSectionClass], runs := [],
                        obj := some .rule },
                      { id := 0, tag := .p, classes := [textSectionClass], runs := [],
                        obj := none }]
              sel := selStartOf (.inSec 1)
              nextId := 2 } false :=
  (C6_amended _ 1
    { id := 1, tag := .div, classes := [containerSectionClass], runs := [], obj := some .rule }
    (by decide) (by decide) (by decide)).2.2 (by decide) (by decide)

theorem findSec_replaceSec (d : List Sec) (i : Nat) (x : Sec) (s : Sec)
    (hfs : findSec d i = some s) (hfresh : ∀ y ∈ d, y.id ≠ x.id) :
    findSec (replaceSec d i x) x.id = some x := by
  induction d with
  | nil => simp [findSec] at hfs
  | cons a rest ih =>
      have hax : a.id ≠ x.id := hfresh a (by simp)
      by_cases hai : a.id = i
      · simp [replaceSec, findSec, List.find?_cons, hai]
      · unfold findSec at hfs ih ⊢
        rw [List.find?_cons] at hfs
        simp only [hai, decide_eq_false, Bool.false_eq_true] at hfs
        unfold replaceSec
        rw [List.map_cons, if_neg hai, List.find?_cons]
        simp only [hax, decide_eq_false, Bool.false_eq_true]
        exact ih hfs (fun y hy => hfresh y (by simp [hy]))

/-- The second section of the C8 state: a text section holding one
bold run. -/
def c8Sec1 : Sec :=
  { id := 1
    tag := .p
    classes := [textSectionClass]
    runs := [{ bold := true, italic := false, link := none, text := "y" }]
    obj := none }

/-- The state used against C8: two plain text sections, the cursor in
the SECOND (not first) one, which holds a bold run. -/
def c8St : EditorState :=
  { initState with
      doc := [{ id := 0, tag := .p, classes := [textSectionClass],
                runs := [plainRun ("a")], obj := none },
              c8Sec1]
      sel := selStartOf (.inSec 1)
      nextId := 2 }

/-- C8 counterexample: wrapHeading on a NON-first non-heading section
produces an H1 (large heading), not the H2 (small heading) the claim
prescribes for non-first sections. -/
theorem C8_counterexample :
    ((findSec (wrapHeadingEvt c8St).state.doc 2).map Sec.tag) = some Tag.h1 ∧
    ¬ (((findSec (wrapHeadingEvt c8St).state.doc 2).map Sec.tag) = some Tag.h2) ∧
    ¬ ((c8St.doc.head?.map Sec.id) = some 1) := by
  decide

/-- C8, amended: wrapHeading cycles the section-resolved block
none (DIV / P) to H1, H1 to H2, H2 back to options.divOrPar,
INDEPENDENT of whether the block is the first section; on every
invocation all markup is stripped first (the replacement block holds
only plain runs with the original text), the class metadata of the new
state is applied, the atomic child (if any) is destroyed, and the
selection collapses after the focus. -/
theorem C8_amended (st : EditorState) (i : Nat) (s : Sec)
    (ha : st.sel.anchor = .inSec i)
    (hfs : findSec st.doc i = some s)
    (hfresh : ∀ y ∈ st.doc, y.id ≠ st.nextId) :
    ∃ st2 s2, wrapHeadingEvt st = .ok st2 true ∧
      findSec st2.doc st.nextId = some s2 ∧
      s2.tag = (match s.tag with
                | Tag.div => Tag.h1
                | Tag.p => Tag.h1
                | Tag.h1 => Tag.h2
                | Tag.h2 => st.opts.divOrPar) ∧
      s2.classes = (headingParams st s.tag).2 ∧
      (∀ r ∈ s2.runs, r.isPlain = true) ∧
      s2.textContent = s.textContent ∧
      s2.obj = none ∧
      st2.sel.collapsed = true := by
  refine ⟨{ st with
            doc := replaceSec st.doc i
              { stripTags s with
                  id := st.nextId
                  tag := (headingParams st s.tag).1
                  classes := (headingParams st s.tag).2 }
            nextId := st.nextId + 1
            sel :=
              { anchor := .inSec st.nextId
                anchorOffset :=
                  ({ stripTags s with
                      id := st.nextId
                      tag := (headingParams st s.tag).1
                      classes := (headingParams st s.tag).2 } : Sec).textContent.length
                focusOffset :=
                  ({ stripTags s with
                      id := st.nextId
                      tag := (headingParams st s.tag).1
                      classes := (headingParams st s.tag).2 } : Sec).textContent.length
                sameNode := true
                collapsed := true } },
    { stripTags s with
        id := st.nextId
        tag := (headingParams st s.tag).1
        classes := (headingParams st s.tag).2 },
    ?_, ?_, ?_, rfl, ?_, ?_, rfl, rfl⟩
  · simp [wrapHeadingEvt, ha, findParentBlockOf, hfs]
  · exact findSec_replaceSec st.doc i _ s hfs hfresh
  · cases s.tag <;> simp [headingParams]
  · intro r hr
    simp only [stripTags] at hr
    by_cases he : s.textContent = ""
    · simp [he] at hr
    · simp [he] at hr
      rw [hr]
      rfl
  · show Sec.textContent
      { stripTags s with
          id := st.nextId
          tag := (headingParams st s.tag).1
          classes := (headingParams st s.tag).2 } = s.textContent
    by_cases he : s.textContent = ""
    · have he2 : List.foldl (fun a r => a ++ r.text) ("") s.runs = ("") := he
      simp [Sec.textContent, stripTags, he2]
    · have he2 : ¬(List.foldl (fun a r => a ++ r.text) ("") s.runs = ("")) := he
      simp [Sec.textContent, stripTags, he2, plainRun, String.empty_append]

/-- Witness for C8_amended at the two-section state (cursor in the
non-first plain section). -/
theorem C8_amended_witness :
    ∃ st2 s2, wrapHeadingEvt c8St = .ok st2 true ∧
      findSec st2.doc c8St.nextId = some s2 ∧
      s2.tag = (match c8Sec1.tag with
                | Tag.div => Tag.h1
                | Tag.p => Tag.h1
                | Tag.h1 => Tag.h2
                | Tag.h2 => c8St.opts.divOrPar) ∧
      s2.classes = (headingParams c8St c8Sec1.tag).2 ∧
      (∀ r ∈ s2.runs, r.isPlain = true) ∧
      s2.textContent = c8Sec1.textContent ∧
      s2.obj = none ∧
      st2.sel.collapsed = true :=
  C8_amended c8St 1 c8Sec1 (by decide) (by decide) (by decide)

/-- The concatenated text of a run list (textContent). -/
def runsText (rs : List Run) : String :=
  rs.foldl (fun a r => a ++ r.text) ""

theorem textFoldl_acc (rs : List Run) (acc : String) :
    rs.foldl (fun a r => a ++ r.text) acc = acc ++ runsText rs := by
  induction rs generalizing acc with
  | nil => simp [runsText, String.append_empty]
  | cons r rest ih =>
      unfold runsText
      simp only [List.foldl_cons]
      rw [ih (acc ++ r.text), ih (("") ++ r.text), String.empty_append, String.append_assoc]

theorem runsText_cons (r : Run) (rs : List Run) :
    runsText (r :: rs) = r.text ++ runsText rs := by
  unfold runsText
  simp only [List.foldl_cons]
  rw [textFoldl_acc, String.empty_append]
  rfl

theorem take_drop_text (t : String) (n : Nat) :
    String.mk (t.toList.take n) ++ String.mk (t.toList.drop n) = t := by
  show String.mk (t.toList.take n ++ t.toList.drop n) = t
  rw [List.take_append_drop]
  rfl

theorem splitRunsAt_text (rs : List Run) (n : Nat) :
    runsText (splitRunsAt rs n).1 ++ runsText (splitRunsAt rs n).2 = runsText rs := by
  induction rs generalizing n with
  | nil => simp [splitRunsAt, runsText, String.append_empty]
  | cons r rest ih =>
      unfold splitRunsAt
      by_cases h0 : n = 0
      · simp [h0, runsText, String.empty_append]
      · by_cases hlt : n < r.text.length
        · rw [if_neg h0, if_pos hlt]
          calc runsText [({ r with text := String.mk (r.text.toList.take n) } : Run)]
                ++ runsText (({ r with text := String.mk (r.text.toList.drop n) } : Run) :: rest)
              = String.mk (r.text.toList.take n)
                ++ (String.mk (r.text.toList.drop n) ++ runsText rest) := by
                rw [runsText_cons, runsText_cons]
                rw [show runsText ([] : List Run) = ("") from rfl, String.append_empty]
            _ = (String.mk (r.text.toList.take n) ++ String.mk (r.text.toList.drop n))
                ++ runsText rest := by rw [String.append_assoc]
            _ = r.text ++ runsText rest := by rw [take_drop_text]
            _ = runsText (r :: rest) := (runsText_cons r rest).symm
        · rw [if_neg h0, if_neg hlt]
          calc runsText (r :: (splitRunsAt rest (n - r.text.length)).1)
                ++ runsText (splitRunsAt rest (n - r.text.length)).2
              = r.text ++ (runsText (splitRunsAt rest (n - r.text.length)).1
                  ++ runsText (splitRunsAt rest (n - r.text.length)).2) := by
                rw [runsText_cons, String.append_assoc]
            _ = r.text ++ runsText rest := by rw [ih (n - r.text.length)]
            _ = runsText (r :: rest) := (runsText_cons r rest).symm

theorem runsText_map_link (rs : List Run) (u : String) :
    runsText (rs.map (fun r => { r with link := some u })) = runsText rs := by
  induction rs with
  | nil => rfl
  | cons r rest ih => rw [List.map_cons, runsText_cons, runsText_cons, ih]

theorem runsText_append (xs ys : List Run) :
    runsText (xs ++ ys) = runsText xs ++ runsText ys := by
  induction xs with
  | nil => simp [runsText, String.empty_append]
  | cons r rest ih =>
      rw [List.cons_append, runsText_cons, runsText_cons, ih, String.append_assoc]

theorem findSec_updateSec (d : List Sec) (i : Nat) (f : Sec → Sec) (s : Sec)
    (hfs : findSec d i = some s) :
    findSec (updateSec d i f) i = some { f s with id := s.id } := by
  induction d with
  | nil => simp [findSec] at hfs
  | cons a rest ih =>
      by_cases hai : a.id = i
      · unfold findSec at hfs
        rw [List.find?_cons] at hfs
        have has : a = s := by
          simpa [hai] using hfs
        subst has
        unfold updateSec findSec
        rw [List.map_cons, if_pos hai, List.find?_cons]
        simp [hai]
      · unfold findSec at hfs ih ⊢
        rw [List.find?_cons] at hfs
        simp only [hai, decide_eq_false, Bool.false_eq_true] at hfs
        unfold updateSec at ih ⊢
        rw [List.map_cons, if_neg hai, List.find?_cons]
        simp only [hai, decide_eq_false, Bool.false_eq_true]
        exact ih hfs

/-- The url the claim says a successful wrapLink must use: unchanged
when it already carries an http or https scheme, prefixed with the http
scheme otherwise. -/
def claimedLinkURL (url : String) : String :=
  if strStarts ("http://") url || strStarts ("https://") url then url
  else ("http://") ++ url

theorem validateURL_eq_claimed (url : String) (hd : hasDot url = true) :
    validateURL url = some (claimedLinkURL url) := by
  unfold validateURL claimedLinkURL
  cases h1 : strStarts ("http://") url <;> cases h2 : strStarts ("https://") url <;>
    simp [hd, h1, h2]

theorem wrapped_text (rs : List Run) (i j : Nat) (u : String) :
    runsText ((splitRunsAt rs i).1
      ++ ((splitRunsAt (splitRunsAt rs i).2 j).1.map (fun r => { r with link := some u }))
      ++ (splitRunsAt (splitRunsAt rs i).2 j).2) = runsText rs := by
  rw [runsText_append, runsText_append, runsText_map_link, String.append_assoc,
    splitRunsAt_text ((splitRunsAt rs i).2) j]
  exact splitRunsAt_text rs i

/-- The section used against the frozen C7: plain text around one bold
run, as execCommand bold leaves it. -/
def c7bSec : Sec :=
  { id := 0
    tag := .p
    classes := [textSectionClass]
    runs := [plainRun ("a"), { bold := true, italic := false, link := none, text := ("bc") },
             plainRun ("d")]
    obj := none }

/-- See c7bSec. -/
def c7bSt : EditorState := { initState with doc := [c7bSec] }

/-- C7 counterexample: a range starting strictly inside the bold run
and ending outside it partially selects the b element, so
surroundContents throws InvalidStateError even though the url carries a
dot - wrapLink neither returns a failure indicator nor wraps, refuting
that it fails exactly on dotless urls and succeeds on every range
otherwise (the document is still left untouched). -/
theorem C7_counterexample :
    hasDot ("x.com") = true ∧
    wrapLinkEvt ("x.com") { sec := 0, startOff := 2, endOff := 4 } c7bSt = .thrown c7bSt := by
  decide

/-- C7, amended: wrapLink returns false with the document untouched
exactly when the url has no dot; for a dotted url it throws
InvalidStateError - before any mutation - when the range partially
selects a marked element (one boundary strictly inside a bold / italic
/ link run, the other outside that run), and otherwise succeeds: the
link href is the url itself when it already starts with the http or
https scheme and the http-prefixed url otherwise, the covered runs
acquire that link mark, the text content is unchanged, and the
selection collapses to the end of the range. -/
theorem C7_amended (url : String) (rng : RangeM) (st : EditorState) (s : Sec)
    (hfs : findSec st.doc rng.sec = some s) :
    (wrapLinkEvt url rng st = .ok st none ↔ hasDot url = false) ∧
    (hasDot url = true →
      rangePartialSelects s.runs rng.startOff rng.endOff = true →
      wrapLinkEvt url rng st = .thrown st) ∧
    (hasDot url = true →
      rangePartialSelects s.runs rng.startOff rng.endOff = false →
      ∃ st2, wrapLinkEvt url rng st = .ok st2 (some (claimedLinkURL url)) ∧
        st2.sel = { anchor := .inSec s.id
                    anchorOffset := rng.endOff
                    focusOffset := rng.endOff
                    sameNode := true
                    collapsed := true } ∧
        ∃ s2, findSec st2.doc rng.sec = some s2 ∧
          s2.runs =
            (splitRunsAt s.runs rng.startOff).1
              ++ ((splitRunsAt (splitRunsAt s.runs rng.startOff).2
                    (rng.endOff - rng.startOff)).1.map
                  (fun r => { r with link := some (claimedLinkURL url) }))
              ++ (splitRunsAt (splitRunsAt s.runs rng.startOff).2
                    (rng.endOff - rng.startOff)).2 ∧
          s2.textContent = s.textContent) := by
  refine ⟨?_, ?_, ?_⟩
  · cases hd : hasDot url with
    | false =>
        have hv : validateURL url = none := by
          simp [validateURL, hd]
        simp [wrapLinkEvt, hv]
    | true =>
        have hv : validateURL url = some (claimedLinkURL url) := validateURL_eq_claimed url hd
        cases hps : rangePartialSelects s.runs rng.startOff rng.endOff with
        | true => simp [wrapLinkEvt, hv, hfs, hps]
        | false => simp [wrapLinkEvt, hv, hfs, hps]
  · intro hd hps
    have hv : validateURL url = some (claimedLinkURL url) := validateURL_eq_claimed url hd
    simp [wrapLinkEvt, hv, hfs, hps]
  · intro hd hps
    have hv : validateURL url = some (claimedLinkURL url) := validateURL_eq_claimed url hd
    refine ⟨{ st with
              doc := updateSec st.doc rng.sec (fun t => { t with runs :=
                (splitRunsAt s.runs rng.startOff).1
                  ++ ((splitRunsAt (splitRunsAt s.runs rng.startOff).2
                        (rng.endOff - rng.startOff)).1.map
                      (fun r => { r with link := some (claimedLinkURL url) }))
                  ++ (splitRunsAt (splitRunsAt s.runs rng.startOff).2
                        (rng.endOff - rng.startOff)).2 })
              sel := { anchor := .inSec s.id
                       anchorOffset := rng.endOff
                       focusOffset := rng.endOff
                       sameNode := true
                       collapsed := true } }, ?_, rfl, ?_⟩
    · simp only [wrapLinkEvt, hv, hfs, hps, Bool.false_eq_true, if_false]
    · refine ⟨_, findSec_updateSec st.doc rng.sec _ s hfs, rfl, ?_⟩
      show Sec.textContent _ = Sec.textContent s
      unfold Sec.textContent
      exact wrapped_text s.runs rng.startOff (rng.endOff - rng.startOff) (claimedLinkURL url)

/-- The single-section state used for the C7 witness. -/
def c7Sec : Sec :=
  { id := 0
    tag := .p
    classes := [textSectionClass]
    runs := [plainRun ("x")]
    obj := none }

/-- See c7Sec. -/
def c7St : EditorState := { initState with doc := [c7Sec] }

/-- Witness for C7_amended: Scenario E (a dotless url fails and the
state is untouched), a partially-selecting range throws on a dotted
url, and a safe range is not rejected. -/
theorem C7_witness :
    (wrapLinkEvt ("not a url") { sec := 0, startOff := 0, endOff := 1 } c7St =
        .ok c7St none) ∧
    wrapLinkEvt ("x.y") { sec := 0, startOff := 2, endOff := 4 } c7bSt = .thrown c7bSt ∧
    ¬(wrapLinkEvt ("example.com") { sec := 0, startOff := 0, endOff := 1 } c7St =
        .ok c7St none) := by
  refine ⟨?_, ?_, ?_⟩
  · exact ((C7_amended ("not a url") { sec := 0, startOff := 0, endOff := 1 } c7St c7Sec
      (by decide)).1).mpr (by decide)
  · exact (C7_amended ("x.y") { sec := 0, startOff := 2, endOff := 4 } c7bSt c7bSec
      (by decide)).2.1 (by decide) (by decide)
  · intro h
    have h2 := ((C7_amended ("example.com") { sec := 0, startOff := 0, endOff := 1 } c7St c7Sec
      (by decide)).1).mp h
    exact absurd h2 (by decide)

/-- C10: html(editable) is effect-free on the live editor - it works on
a clone, so the state it returns is the input state (document,
selection, live contenteditable flag all unchanged), repeated calls
yield the same string, and the output is exactly the rendering of the
live section list with the requested editability on the snapshot root
only. -/
theorem C10_html_pure :
    ∀ (st : EditorState) (e : Bool),
      (htmlOp e st).2 = st ∧
      (htmlOp e ((htmlOp e st).2)).1 = (htmlOp e st).1 ∧
      (htmlOp e st).2.rootEditable = st.rootEditable ∧
      (htmlOp e st).1 = renderRoot e st.mainClasses st.doc := by
  intro st e
  exact ⟨rfl, rfl, rfl, rfl⟩

end WF
